import Mathlib

set_option linter.unusedVariables false

/-!
Verification of the MD_MIDIFile library (Standard MIDI File player) against its
natural-language specification.

The development shallowly embeds the current source variant
(`src/src/MD_MIDIFile.cpp`, `src/src/MD_MIDITrack.cpp`, `src/src/MD_MIDIHelper.cpp`)
in Lean.  Machine integers are modelled as `Nat`/`Int` with explicit reductions
modulo `2^8`, `2^16`, `2^32` where the C arithmetic wraps; C `int` promotion is
modelled as at-least-32-bit signed arithmetic (the ARM Arduino targets).

The SD-card byte source (SdFat) is an external collaborator: it is modelled by
the spec's byte-source contract (seek to an absolute offset succeeding exactly
when the target does not run past the end of the source, reads returning the
next byte or -1 at end of source, the -1 encoding also being the failure value
the track loader's seek test compares against).

The class-member structs of the current header file are not part of the
sources; where a definition depends on them it is modelled from the spec and
marked `Modelled from the spec:` in its doc comment.
-/

namespace MDMidi

/-- Reduction modulo 2^8: value of a C `uint8_t` assignment. -/
def u8 (n : Nat) : Nat := n % 256

/-- Reduction modulo 2^16: value of a C `uint16_t` assignment. -/
def u16 (n : Nat) : Nat := n % 65536

/-- Reduction modulo 2^32: value of a C `uint32_t` assignment. -/
def u32 (n : Nat) : Nat := n % 4294967296

/-- C `uint32_t` subtraction `a - b` (wraps modulo 2^32). -/
def sub32 (a b : Nat) : Nat := (u32 a + (4294967296 - u32 b)) % 4294967296

/-- The byte source handle (`SdFile` of the external SdFat collaborator):
a byte list, a read position and an open flag. -/
structure SdFile where
  data : List Nat
  pos : Nat
  opened : Bool
  deriving DecidableEq, Repr

/-- Byte of a stream at an index (streams may store any `Nat`; a read always
delivers the low 8 bits, as a byte bus does). -/
def byteAt (bs : List Nat) (i : Nat) : Nat := bs.getD i 0 % 256

/-- `SdFile::read()`: next byte, or -1 at end of source; the position
advances only on a successful read. -/
def SdFile.read (f : SdFile) : Int × SdFile :=
  if f.pos < f.data.length then
    ((byteAt f.data f.pos : Nat), { f with pos := f.pos + 1 })
  else (-1, f)

/-- A read whose result is assigned to a C `uint8_t` (so -1 becomes 0xFF). -/
def SdFile.read8 (f : SdFile) : Nat × SdFile :=
  let r := f.read
  (((r.1.emod 256).toNat), r.2)

/-- `SdFile::seekSet(target)`: succeeds exactly when the target does not run
past the end of the source; on failure the position is unchanged.  The caller
in the track loader tests the result against -1, so failure is the value -1
and success the new position (the byte-source contract of the spec). -/
def SdFile.seekSet (f : SdFile) (target : Nat) : Int × SdFile :=
  if target ≤ f.data.length then ((target : Nat), { f with pos := target })
  else (-1, f)

/-- `SdFile::seekCur(delta)`: seek relative to the current position.  `delta`
is the bit pattern of the C `uint32_t`/`int32_t` offset, so the target is
`pos + delta` modulo 2^32; the (ignored) failure leaves the position alone. -/
def SdFile.seekCur (f : SdFile) (delta : Nat) : SdFile :=
  ((f.seekSet (u32 (f.pos + delta)))).2

/-- `SdFile::close()`. -/
def SdFile.closeF (f : SdFile) : SdFile := { f with opened := false }

/-- `SdFile::fgets(h, n+1)`: reads up to `n` bytes, stopping early at end of
source or just after a newline byte. Yields the bytes read. -/
def SdFile.fgets (f : SdFile) : Nat → List Nat × SdFile
  | 0 => ([], f)
  | n + 1 =>
    if f.pos < f.data.length then
      let c := byteAt f.data f.pos
      let f' : SdFile := { f with pos := f.pos + 1 }
      if c = 10 then ([c], f')
      else
        let r := f'.fgets n
        (c :: r.1, r.2)
    else ([], f)

/-- Accumulator loop of `readMultiByte`: `value = (value << 8) + f->read()`
on a C `uint32_t`, the read result being a (possibly -1) `int`. -/
def readMultiByteAux (f : SdFile) (value : Nat) : Nat → Nat × SdFile
  | 0 => (value, f)
  | n + 1 =>
    let r := f.read
    readMultiByteAux r.2 ((((value : Int) * 256 + r.1).emod 4294967296).toNat) n

/-- `readMultiByte(f, nLen)` from MD_MIDIHelper.cpp: fixed-length big-endian
value. -/
def readMultiByte (f : SdFile) (nLen : Nat) : Nat × SdFile :=
  readMultiByteAux f 0 nLen

/-- Loop of `readVarLen`: `value = (value << 7) + (c & 0x7f)` while `c & 0x80`,
on a C `uint32_t`.  At end of source the C loop reads -1 forever and never
terminates; this divergence is `none`.  The fuel is the number of readable
bytes, which bounds the number of loop steps of any terminating run. -/
def readVarLenAux : Nat → Nat → SdFile → Option (Nat × SdFile)
  | 0, _, _ => none
  | fuel + 1, value, f =>
    if f.pos < f.data.length then
      let c := byteAt f.data f.pos
      let f' : SdFile := { f with pos := f.pos + 1 }
      let value' := u32 (value * 128 + c % 128)
      if 128 ≤ c then readVarLenAux fuel value' f' else some (value', f')
    else none

/-- `readVarLen(f)` from MD_MIDIHelper.cpp: MIDI variable-length quantity. -/
def readVarLen (f : SdFile) : Option (Nat × SdFile) :=
  readVarLenAux (f.data.length - f.pos) 0 f

/-- `MTHD_HDR` "MThd" as bytes. -/
def mthdBytes : List Nat := [77, 84, 104, 100]

/-- `MTRK_HDR` "MTrk" as bytes. -/
def mtrkBytes : List Nat := [77, 84, 114, 107]

/-- `MIDI_MAX_TRACKS` (configured maximum track count; 16 in the header). -/
def MIDI_MAX_TRACKS : Nat := 16

/-- Fixed SysEx payload capacity `ARRAY_SIZE(sev.data)` (`uint8_t data[50]`
in the header). -/
def SYSEX_DATA_SIZE : Nat := 50

/-- Modelled from the spec: the fixed Meta payload capacity
`ARRAY_SIZE(mev.data)` of the `meta_event` struct, which lives in the current
header file that is missing from the sources.  The spec only says payloads are
"up to a fixed maximum capacity"; the value is kept at the same bound as the
SysEx buffer and no claim depends on it. -/
def META_DATA_SIZE : Nat := 50

/-- `midi_event` struct: a decoded channel message.  `data` is the 4-byte
payload array. -/
structure midi_event where
  track : Nat
  channel : Nat
  size : Nat
  data : List Nat
  deriving DecidableEq, Repr

/-- Modelled from the spec: the `sysex_event` struct of the missing current
header (`track`, a size count, and a payload array of `SYSEX_DATA_SIZE`
bytes).  `data` holds exactly the bytes the decoder stored (the prefix of the
fixed array that is valid). -/
structure sysex_event where
  track : Nat
  size : Nat
  data : List Nat
  deriving DecidableEq, Repr

/-- Modelled from the spec: the `meta_event` struct of the missing current
header: meta type code, size, a byte payload and a rendered text field (the C
union aliasing of `data`/`chars` is not modelled; no claim depends on it). -/
structure meta_event where
  track : Nat
  size : Nat
  type : Nat
  data : List Nat
  chars : String
  deriving DecidableEq, Repr

/-- One event delivered to the Dispatch Sink (a call of one of the three
callback hooks). -/
inductive DispatchedEvent where
  | midi (e : midi_event)
  | sysex (e : sysex_event)
  | meta (e : meta_event)
  deriving DecidableEq, Repr

/-- `MD_MFTrack`: per-track cursor state. -/
structure MD_MFTrack where
  trackId : Nat
  length : Nat
  startOffset : Nat
  currOffset : Nat
  endOfTrack : Bool
  elapsedTicks : Nat
  mev : midi_event
  deriving DecidableEq, Repr

/-- A track as built by the `MD_MFTrack` constructor (which runs `reset`; the
`_mev` member is uninitialised in C and modelled as all zeroes). -/
def trackDefault : MD_MFTrack :=
  { trackId := 255, length := 0, startOffset := 0, currOffset := 0,
    endOfTrack := false, elapsedTicks := 0,
    mev := { track := 0, channel := 0, size := 0, data := [0, 0, 0, 0] } }

instance : Inhabited MD_MFTrack := ⟨trackDefault⟩

/-- `MD_MIDIFile`: the root object.  The three handler pointers are modelled
by their null test only (`true` = a sink hook is installed). -/
structure MD_MIDIFile where
  trackCount : Nat
  format : Nat
  tickTime : Nat
  lastTickError : Nat
  lastTickCheckTime : Nat
  syncAtStart : Bool
  paused : Bool
  looping : Bool
  fileName : List Nat
  ticksPerQuarterNote : Nat
  tempo : Nat
  tempoDelta : Int
  timeSigNum : Nat
  timeSigDen : Nat
  midiHandlerSet : Bool
  sysexHandlerSet : Bool
  metaHandlerSet : Bool
  fd : SdFile
  track : List MD_MFTrack
  deriving DecidableEq, Repr

/-- `MD_MIDIFile::calcTickTime()`:
`_tickTime = (60 * 1000000L) / (_tempo + _tempoDelta)` then
`_tickTime = (_tickTime * 4) / (_timeSignature[1] * _ticksPerQuarterNote)`,
guarded by all three divisors being nonzero.  The first division is C signed
`long` division (truncation toward zero, `Int.tdiv`), its result stored into
the `uint32_t` member; the second is unsigned. -/
def MD_MIDIFile.calcTickTime (s : MD_MIDIFile) : MD_MIDIFile :=
  if (s.tempo : Int) + s.tempoDelta ≠ 0 ∧ s.ticksPerQuarterNote ≠ 0 ∧ s.timeSigDen ≠ 0 then
    let t1 : Nat := ((Int.tdiv 60000000 ((s.tempo : Int) + s.tempoDelta)).emod 4294967296).toNat
    let t2 : Nat := u32 (t1 * 4) / (s.timeSigDen * s.ticksPerQuarterNote)
    { s with tickTime := t2 }
  else s

/-- `MD_MIDIFile::setTempoAdjust(t)`: `if ((t + _tempo) > 0) _tempoDelta = t;`
then recompute. -/
def MD_MIDIFile.setTempoAdjust (s : MD_MIDIFile) (t : Int) : MD_MIDIFile :=
  (if 0 < t + (s.tempo : Int) then { s with tempoDelta := t } else s).calcTickTime

/-- `MD_MIDIFile::setTempo(t)`: `if ((_tempoDelta + t) > 0) _tempo = t;`
then recompute. -/
def MD_MIDIFile.setTempo (s : MD_MIDIFile) (t : Nat) : MD_MIDIFile :=
  (if 0 < s.tempoDelta + (t : Int) then { s with tempo := t } else s).calcTickTime

/-- `MD_MIDIFile::setTimeSignature(n, d)`. -/
def MD_MIDIFile.setTimeSignature (s : MD_MIDIFile) (n d : Nat) : MD_MIDIFile :=
  ({ s with timeSigNum := u8 n, timeSigDen := u8 d }).calcTickTime

/-- `MD_MIDIFile::setTicksPerQuarterNote(ticks)`. -/
def MD_MIDIFile.setTicksPerQuarterNote (s : MD_MIDIFile) (ticks : Nat) : MD_MIDIFile :=
  ({ s with ticksPerQuarterNote := u16 ticks }).calcTickTime

/-- `MD_MIDIFile::setMicrosecondPerQuarterNote(m)`:
`_tempo = (60 * 1000000L) / m` (unsigned division, `uint16_t` assignment),
then recompute. -/
def MD_MIDIFile.setMicrosecondPerQuarterNote (s : MD_MIDIFile) (m : Nat) : MD_MIDIFile :=
  ({ s with tempo := u16 (60000000 / u32 m) }).calcTickTime

/-- `MD_MIDIFile::setFilename(aname)`. -/
def MD_MIDIFile.setFilename (s : MD_MIDIFile) (aname : List Nat) : MD_MIDIFile :=
  { s with fileName := aname }

/-- `MD_MIDIFile::initialise()`: zeroes the identity fields and applies the
MIDI defaults through the setters, in source order. -/
def MD_MIDIFile.initialise (s : MD_MIDIFile) : MD_MIDIFile :=
  let s := { s with trackCount := 0, format := 0, tickTime := 0, lastTickError := 0,
                    syncAtStart := false, paused := false, looping := false,
                    midiHandlerSet := false, sysexHandlerSet := false }
  let s := s.setFilename []
  let s := s.setTicksPerQuarterNote 48
  let s := s.setTempo 120
  let s := s.setTempoAdjust 0
  let s := s.setMicrosecondPerQuarterNote 500000
  s.setTimeSignature 4 4

/-- The state built by the `MD_MIDIFile` constructor: members are
default-constructed (tracks run `reset`; scalar members are modelled as
zeroed) and then `initialise` runs. -/
def MD_MIDIFile.new : MD_MIDIFile :=
  MD_MIDIFile.initialise
    { trackCount := 0, format := 0, tickTime := 0, lastTickError := 0,
      lastTickCheckTime := 0, syncAtStart := false, paused := false,
      looping := false, fileName := [], ticksPerQuarterNote := 0, tempo := 0,
      tempoDelta := 0, timeSigNum := 0, timeSigDen := 0,
      midiHandlerSet := false, sysexHandlerSet := false, metaHandlerSet := false,
      fd := { data := [], pos := 0, opened := false },
      track := List.replicate MIDI_MAX_TRACKS trackDefault }

/-- `MD_MIDIFile::tickClock()` at the wall-clock instant `now` (the value both
`micros()` calls of one invocation return):
`elapsedTime = _lastTickError + micros() - _lastTickCheckTime` on `uint32_t`;
if at least one tick duration has elapsed, the (`uint16_t`!) tick count is
`elapsedTime / _tickTime`, the error carry is `elapsedTime - _tickTime*ticks`,
and the reference time is resampled. -/
def MD_MIDIFile.tickClock (s : MD_MIDIFile) (now : Nat) : Nat × MD_MIDIFile :=
  let elapsedTime := sub32 (s.lastTickError + u32 now) s.lastTickCheckTime
  if s.tickTime ≤ elapsedTime then
    let ticks := u16 (elapsedTime / s.tickTime)
    ( ticks,
      { s with lastTickError := sub32 elapsedTime (u32 (s.tickTime * ticks)),
               lastTickCheckTime := u32 now } )
  else (0, s)

/-- Reads `n` consecutive bytes into `uint8_t` cells (a C read loop). -/
def readBytes (f : SdFile) : Nat → List Nat × SdFile
  | 0 => ([], f)
  | n + 1 =>
    let r := f.read8
    let rest := readBytes r.2 n
    (r.1 :: rest.1, rest.2)

/-- The running-status read loop `for (i = 2; i < _mev.size; i++)
_mev.data[i] = read()`: `k` cells starting at index `i` of `data` are
overwritten with fresh reads. -/
def readDataLoop : Nat → List Nat → Nat → SdFile → List Nat × SdFile
  | 0, data, _, f => (data, f)
  | k + 1, data, i, f =>
    let r := f.read8
    readDataLoop k (data.set i r.1) (i + 1) r.2

/-- `MD_MFTrack::syncTime()`. -/
def MD_MFTrack.syncTime (tk : MD_MFTrack) : MD_MFTrack :=
  { tk with elapsedTicks := 0 }

/-- `MD_MFTrack::restart()`. -/
def MD_MFTrack.restart (tk : MD_MFTrack) : MD_MFTrack :=
  { tk with currOffset := 0, endOfTrack := false, elapsedTicks := 0 }

/-- `MD_MFTrack::reset()` (note `_mev` is not cleared). -/
def MD_MFTrack.reset (tk : MD_MFTrack) : MD_MFTrack :=
  { tk.restart with length := 0, startOffset := 0, trackId := 255 }

/-- `MD_MFTrack::close()`. -/
def MD_MFTrack.close (tk : MD_MFTrack) : MD_MFTrack := tk.reset

/-- The key-name lookup table `aaa` of the Key Signature meta case. -/
def keyNames : List String :=
  ["Cb", "Gb", "Db", "Ab", "Eb", "Bb", "F", "C", "G", "D", "A", "E", "B",
   "F#", "C#", "G#", "D#", "A#"]

/-- Case `0x80 ... 0xBf`, `0xe0 ... 0xef` of `parseEvent`: MIDI message with
2 parameters.  `mf` already holds the source advanced past the status byte
`eType`. -/
def parseMidi2 (tk : MD_MFTrack) (mf : MD_MIDIFile) (eType : Nat) :
    Option (MD_MFTrack × MD_MIDIFile × List DispatchedEvent) :=
  let r1 := mf.fd.read8
  let r2 := r1.2.read8
  let mev := { tk.mev with
                 size := 3,
                 channel := eType &&& 0xF,
                 data := ((tk.mev.data.set 0 (eType &&& 0xF0)).set 1 r1.1).set 2 r2.1 }
  some ({ tk with mev := mev }, { mf with fd := r2.2 },
        if mf.midiHandlerSet then [.midi mev] else [])

/-- Case `0xc0 ... 0xdf` of `parseEvent`: MIDI message with 1 parameter. -/
def parseMidi1 (tk : MD_MFTrack) (mf : MD_MIDIFile) (eType : Nat) :
    Option (MD_MFTrack × MD_MIDIFile × List DispatchedEvent) :=
  let r1 := mf.fd.read8
  let mev := { tk.mev with
                 size := 2,
                 channel := eType &&& 0xF,
                 data := (tk.mev.data.set 0 (eType &&& 0xF0)).set 1 r1.1 }
  some ({ tk with mev := mev }, { mf with fd := r1.2 },
        if mf.midiHandlerSet then [.midi mev] else [])

/-- Case `0x00 ... 0x7f` of `parseEvent`: MIDI run on message.  `eType` is
actually the first data byte of a message reusing the remembered
running-status header in `_mev`. -/
def parseRunOn (tk : MD_MFTrack) (mf : MD_MIDIFile) (eType : Nat) :
    Option (MD_MFTrack × MD_MIDIFile × List DispatchedEvent) :=
  let r1 := readDataLoop (tk.mev.size - 2) (tk.mev.data.set 1 eType) 2 mf.fd
  let mev := { tk.mev with data := r1.1 }
  some ({ tk with mev := mev }, { mf with fd := r1.2 },
        if mf.midiHandlerSet then [.midi mev] else [])

/-- Cases `0xf0`/`0xf7` of `parseEvent`: sysex_event.  A VLQ length, then the
payload capped at the buffer capacity, the excess skipped by a forward
seek. -/
def parseSysex (tk : MD_MFTrack) (mf : MD_MIDIFile) (eType : Nat) :
    Option (MD_MFTrack × MD_MIDIFile × List DispatchedEvent) :=
  match readVarLen mf.fd with
  | none => none
  | some (mLen, fd) =>
    let size := if eType = 0xF0 then mLen + 1 else mLen
    let index := if eType = 0xF0 then 1 else 0
    let minLen := min size SYSEX_DATA_SIZE
    let r1 := readBytes fd (minLen - index)
    let fd2 := if minLen < size then r1.2.seekCur (size - minLen) else r1.2
    let sev : sysex_event :=
      { track := tk.trackId, size := size,
        data := (if eType = 0xF0 then [0xF0] else []) ++ r1.1 }
    some (tk, { mf with fd := fd2 },
          if mf.sysexHandlerSet then [.sysex sev] else [])

/-- Meta case `0x2f` (End of track) of `parseEvent`. -/
def metaEndOfTrack (tk : MD_MFTrack) (mf : MD_MIDIFile) (mType mLen : Nat) (fd : SdFile) :
    MD_MFTrack × MD_MIDIFile × List DispatchedEvent :=
  let mev : meta_event :=
    { track := tk.trackId, size := mLen, type := mType, data := [], chars := "" }
  ({ tk with endOfTrack := true }, { mf with fd := fd },
   if mf.metaHandlerSet then [.meta mev] else [])

/-- Meta case `0x51` (set Tempo) of `parseEvent`. -/
def metaSetTempo (tk : MD_MFTrack) (mf : MD_MIDIFile) (mType mLen : Nat) (fd : SdFile) :
    MD_MFTrack × MD_MIDIFile × List DispatchedEvent :=
  let rv := readMultiByte fd 3
  let value := rv.1
  let mf2 := ({ mf with fd := rv.2 }).setMicrosecondPerQuarterNote value
  let mev : meta_event :=
    { track := tk.trackId, size := mLen, type := mType,
      data := [(value >>> 16) &&& 0xFF, (value >>> 8) &&& 0xFF, value &&& 0xFF],
      chars := "" }
  (tk, mf2, if mf2.metaHandlerSet then [.meta mev] else [])

/-- Meta case `0x58` (time signature; the denominator byte is a power-of-two
exponent) of `parseEvent`. -/
def metaTimeSig (tk : MD_MFTrack) (mf : MD_MIDIFile) (mType mLen : Nat) (fd : SdFile) :
    MD_MFTrack × MD_MIDIFile × List DispatchedEvent :=
  let rn := fd.read8
  let rd := rn.2.read8
  let fd2 := rd.2.seekCur (sub32 mLen 2)
  let mf2 := ({ mf with fd := fd2 }).setTimeSignature rn.1 (1 <<< rd.1)
  let mev : meta_event :=
    { track := tk.trackId, size := mLen, type := mType,
      data := [rn.1, rd.1, 0, 0], chars := "" }
  (tk, mf2, if mf2.metaHandlerSet then [.meta mev] else [])

/-- Meta case `0x59` (Key Signature; `sf` is an `int8_t`) of `parseEvent`. -/
def metaKeySig (tk : MD_MFTrack) (mf : MD_MIDIFile) (mType mLen : Nat) (fd : SdFile) :
    MD_MFTrack × MD_MIDIFile × List DispatchedEvent :=
  let rs := fd.read8
  let rm := rs.2.read8
  let sf : Int := (rs.1 : Int) - (if 128 ≤ rs.1 then 256 else 0)
  let chars : String :=
    if -7 ≤ sf ∧ sf ≤ 7 then
      if rm.1 = 0 then (keyNames.getD (sf + 7).toNat "") ++ "M"
      else if rm.1 = 1 then (keyNames.getD (sf + 10).toNat "") ++ "m"
      else "Err"
    else "Err"
  let mev : meta_event :=
    { track := tk.trackId, size := chars.length, type := mType,
      data := [], chars := chars }
  (tk, { mf with fd := rm.2 }, if mf.metaHandlerSet then [.meta mev] else [])

/-- Meta case `0x00` (Sequence Number, a `uint16_t` local) of `parseEvent`. -/
def metaSeqNum (tk : MD_MFTrack) (mf : MD_MIDIFile) (mType mLen : Nat) (fd : SdFile) :
    MD_MFTrack × MD_MIDIFile × List DispatchedEvent :=
  let rx := readMultiByte fd 2
  let x := u16 rx.1
  let mev : meta_event :=
    { track := tk.trackId, size := mLen, type := mType,
      data := [(x >>> 8) &&& 0xFF, x &&& 0xFF], chars := "" }
  (tk, { mf with fd := rx.2 }, if mf.metaHandlerSet then [.meta mev] else [])

/-- Meta cases `0x20`/`0x21` (Channel Prefix / Port Prefix) of `parseEvent`. -/
def metaOnePrefByte (tk : MD_MFTrack) (mf : MD_MIDIFile) (mType mLen : Nat) (fd : SdFile) :
    MD_MFTrack × MD_MIDIFile × List DispatchedEvent :=
  let rb := readMultiByte fd 1
  let mev : meta_event :=
    { track := tk.trackId, size := mLen, type := mType,
      data := [u8 rb.1], chars := "" }
  (tk, { mf with fd := rb.2 }, if mf.metaHandlerSet then [.meta mev] else [])

/-- Default meta case of `parseEvent`: copy up to capacity, skip the excess
(the `mev.chars[minLen] = 0` write aliases the C union; not modelled). -/
def metaDefault (tk : MD_MFTrack) (mf : MD_MIDIFile) (mType mLen : Nat) (fd : SdFile) :
    MD_MFTrack × MD_MIDIFile × List DispatchedEvent :=
  let minLen := min META_DATA_SIZE mLen
  let rb := readBytes fd minLen
  let fd2 := if META_DATA_SIZE < mLen then rb.2.seekCur (mLen - META_DATA_SIZE) else rb.2
  let mev : meta_event :=
    { track := tk.trackId, size := mLen, type := mType,
      data := rb.1, chars := "" }
  (tk, { mf with fd := fd2 }, if mf.metaHandlerSet then [.meta mev] else [])

/-- Case `0xff` of `parseEvent`: meta_event, reading the type byte and the
VLQ length, then dispatching on the type to the arm functions above. -/
def parseMeta (tk : MD_MFTrack) (mf : MD_MIDIFile) :
    Option (MD_MFTrack × MD_MIDIFile × List DispatchedEvent) :=
  let rt := mf.fd.read8
  let mType := rt.1
  match readVarLen rt.2 with
  | none => none
  | some (mLen, fd) =>
    if mType = 0x2F then some (metaEndOfTrack tk mf mType mLen fd)
    else if mType = 0x51 then some (metaSetTempo tk mf mType mLen fd)
    else if mType = 0x58 then some (metaTimeSig tk mf mType mLen fd)
    else if mType = 0x59 then some (metaKeySig tk mf mType mLen fd)
    else if mType = 0x00 then some (metaSeqNum tk mf mType mLen fd)
    else if mType = 0x20 ∨ mType = 0x21 then some (metaOnePrefByte tk mf mType mLen fd)
    else some (metaDefault tk mf mType mLen fd)

/-- `MD_MFTrack::parseEvent(mf)`: decode one track event at the current
source position, dispatching on the status byte to the case functions above
(the arms of the C `switch`), updating the cursor, the MidiFile
(tempo/time-signature meta events) and yielding the events handed to the
installed sink hooks.  `none` is the C code's divergence: a `readVarLen`
that hits the end of the source loops forever.  Status ranges are compared on
the `uint8_t` value (so `x &&& 0x80` style tests appear as interval
bounds). -/
def MD_MFTrack.parseEvent (tk : MD_MFTrack) (mf : MD_MIDIFile) :
    Option (MD_MFTrack × MD_MIDIFile × List DispatchedEvent) :=
  let r0 := mf.fd.read8
  let eType := r0.1
  let mf2 := { mf with fd := r0.2 }
  if (0x80 ≤ eType ∧ eType ≤ 0xBF) ∨ (0xE0 ≤ eType ∧ eType ≤ 0xEF) then
    parseMidi2 tk mf2 eType
  else if 0xC0 ≤ eType ∧ eType ≤ 0xDF then
    parseMidi1 tk mf2 eType
  else if eType ≤ 0x7F then
    parseRunOn tk mf2 eType
  else if eType = 0xF0 ∨ eType = 0xF7 then
    parseSysex tk mf2 eType
  else if eType = 0xFF then
    parseMeta tk mf2
  else
    -- unknown status byte (0xF1-0xF6, 0xF8-0xFE): stop playing this track
    some ({ tk with endOfTrack := true }, mf2, [])

/-- `MD_MFTrack::getNextEvent(mf, tickCount)`. -/
def MD_MFTrack.getNextEvent (tk : MD_MFTrack) (mf : MD_MIDIFile) (tickCount : Nat) :
    Option (Bool × MD_MFTrack × MD_MIDIFile × List DispatchedEvent) :=
  if tk.endOfTrack then some (false, tk, mf, [])
  else
    let mf := { mf with fd := (mf.fd.seekSet (u32 (tk.startOffset + tk.currOffset))).2 }
    let tk := { tk with elapsedTicks := u32 (tk.elapsedTicks + tickCount) }
    match readVarLen mf.fd with
    | none => none
    | some (deltaT, fd) =>
      let mf := { mf with fd := fd }
      if tk.elapsedTicks < deltaT then some (false, tk, mf, [])
      else
        let tk := { tk with elapsedTicks := tk.elapsedTicks - deltaT }
        match tk.parseEvent mf with
        | none => none
        | some (tk', mf', evs) =>
          let co := sub32 mf'.fd.pos tk'.startOffset
          let tk' := { tk' with currOffset := co,
                                endOfTrack := tk'.endOfTrack || decide (tk'.length ≤ co) }
          some (true, tk', mf', evs)

/-- `MD_MFTrack::load(trackId, mf)`: track-chunk loader. -/
def MD_MFTrack.load (tk : MD_MFTrack) (trackId : Nat) (mf : MD_MIDIFile) :
    Int × MD_MFTrack × MD_MIDIFile :=
  let tk := { tk with trackId := trackId, mev := { tk.mev with track := trackId } }
  let rh := mf.fd.fgets 4
  let mf := { mf with fd := rh.2 }
  if rh.1 ≠ mtrkBytes then (0, tk, mf)
  else
    let rl := readMultiByte mf.fd 4
    let tk := { tk with length := rl.1 }
    let tk := { tk with startOffset := rl.2.pos, currOffset := 0 }
    let rs := rl.2.seekSet (u32 (tk.startOffset + tk.length))
    if rs.1 = -1 then (1, tk, { mf with fd := rs.2 })
    else (-1, tk, { mf with fd := rs.2 })

/-- The track-load loop of `MD_MIDIFile::load`: loads tracks `i`,
`i+1`, ... while they succeed (`fuel` counts the remaining tracks); on a
failure the source is closed and `10*(i+1) + err` returned. -/
def loadTracksAux (s : MD_MIDIFile) (i : Nat) : Nat → Int × MD_MIDIFile
  | 0 => (-1, s)
  | fuel + 1 =>
    let r := (s.track.getD i trackDefault).load i s
    let s' := { r.2.2 with track := r.2.2.track.set i r.2.1 }
    if r.1 ≠ -1 then (10 * ((i : Int) + 1) + r.1, { s' with fd := s'.fd.closeF })
    else loadTracksAux s' (i + 1) fuel

/-- Failure exit of `MD_MIDIFile::load`: `_fd.close()` then `return code`. -/
def loadFail (code : Int) (s : MD_MIDIFile) : Int × MD_MIDIFile :=
  (code, { s with fd := s.fd.closeF })

/-- Tail of `MD_MIDIFile::load`: `calcTickTime()` then the per-track load
loop over all `_trackCount` tracks. -/
def loadTracks (s : MD_MIDIFile) : Int × MD_MIDIFile :=
  let s := s.calcTickTime
  loadTracksAux s 0 s.trackCount

/-- The time-division field of the header (bytes 12-13) and its SMPTE
dispatch in `MD_MIDIFile::load` (`switch (dat16 >> 8)` on the negated
frames-per-second byte 0xE8/0xE7/0xE3/0xE2 = 232/231/227/226). -/
def loadDivision (s : MD_MIDIFile) : Int × MD_MIDIFile :=
  let rd := readMultiByte s.fd 2
  let dat16 := u16 rd.1
  let s := { s with fd := rd.2 }
  if dat16 &&& 0x8000 ≠ 0 then
    let fps := (dat16 >>> 8) &&& 0xFF
    let res := dat16 &&& 0xFF
    if fps = 232 then loadTracks { s with ticksPerQuarterNote := u16 (24 * res) }
    else if fps = 231 then loadTracks { s with ticksPerQuarterNote := u16 (25 * res) }
    else if fps = 227 then loadTracks { s with ticksPerQuarterNote := u16 (29 * res) }
    else if fps = 226 then loadTracks { s with ticksPerQuarterNote := u16 (30 * res) }
    else loadFail 7 s
  else loadTracks { s with ticksPerQuarterNote := dat16 }

/-- The track-count field of the header (bytes 10-11) and its checks in
`MD_MIDIFile::load` (codes 6 and 7). -/
def loadNTracks (s : MD_MIDIFile) : Int × MD_MIDIFile :=
  let rn := readMultiByte s.fd 2
  let ntrk := u16 rn.1
  let s := { s with fd := rn.2 }
  if s.format = 0 ∧ ntrk ≠ 1 then loadFail 6 s
  else if MIDI_MAX_TRACKS < ntrk then loadFail 7 s
  else loadDivision { s with trackCount := u8 ntrk }

/-- The format field of the header (bytes 8-9) and its check in
`MD_MIDIFile::load` (code 5). -/
def loadFormat (s : MD_MIDIFile) : Int × MD_MIDIFile :=
  let rf := readMultiByte s.fd 2
  let fmt := u16 rf.1
  let s := { s with fd := rf.2 }
  if fmt ≠ 0 ∧ fmt ≠ 1 then loadFail 5 s
  else loadNTracks { s with format := u8 fmt }

/-- The `MThd` magic and chunk-size checks of `MD_MIDIFile::load`
(codes 3 and 4). -/
def loadHeader (s : MD_MIDIFile) : Int × MD_MIDIFile :=
  let rh := s.fd.fgets 4
  let s := { s with fd := rh.2 }
  if rh.1 ≠ mthdBytes then loadFail 3 s
  else
    let r4 := readMultiByte s.fd 4
    let s := { s with fd := r4.2 }
    if r4.1 ≠ 6 then loadFail 4 s
    else loadFormat s

/-- `MD_MIDIFile::load()`.  Opening the file is an external-collaborator
effect: `openOK` says whether `_fd.open` succeeds and `contents` is the byte
content of the container the open associates with the handle. -/
def MD_MIDIFile.load (s : MD_MIDIFile) (openOK : Bool) (contents : List Nat) :
    Int × MD_MIDIFile :=
  if s.fileName = [] then (0, s)
  else if openOK = false then (2, s)
  else loadHeader { s with fd := { data := contents, pos := 0, opened := true } }

/-- The per-index loop over the track array: applies `f` to the tracks with
index in `[lo, hi)` (`idx` is the index of the list head). -/
def forRange (f : MD_MFTrack → MD_MFTrack) (lo hi : Nat) :
    List MD_MFTrack → Nat → List MD_MFTrack
  | [], _ => []
  | t :: rest, idx =>
    (if lo ≤ idx ∧ idx < hi then f t else t) :: forRange f lo hi rest (idx + 1)

/-- `MD_MIDIFile::close()`. -/
def MD_MIDIFile.close (s : MD_MIDIFile) : MD_MIDIFile :=
  { s with track := forRange MD_MFTrack.close 0 s.trackCount s.track 0,
           trackCount := 0, syncAtStart := false, paused := false,
           fileName := [], fd := s.fd.closeF }

/-- `MD_MIDIFile::restart()`: rewind the tracks, except track 0 when looping
a multi-track file, and force a resynchronisation. -/
def MD_MIDIFile.restart (s : MD_MIDIFile) : MD_MIDIFile :=
  { s with track := forRange MD_MFTrack.restart
                      (if s.looping ∧ 1 < s.trackCount then 1 else 0)
                      s.trackCount s.track 0,
           syncAtStart := false }

/-- The `isEOF` scan `for (i=0; i<_trackCount && bEof; i++)`: all loaded
tracks report end-of-track. -/
def allEnded (ts : List MD_MFTrack) (n : Nat) : Bool :=
  (List.range n).all fun i => (ts.getD i trackDefault).endOfTrack

/-- `MD_MIDIFile::isEOF()`. -/
def MD_MIDIFile.isEOF (s : MD_MIDIFile) : Bool × MD_MIDIFile :=
  let bEof := allEnded s.track s.trackCount
  if bEof ∧ s.looping then (false, s.restart)
  else (bEof, s)

/-! ## Spec-side functions

These mirror the spec's and the claims' wording: fields of the container are
located by absolute byte offsets and the load result is a case analysis on
them, independent of the stream-state threading of the implementation. -/

/-- The big-endian field of `n` bytes at absolute offset `pos` of the stream,
as `readMultiByte` delivers it (including its end-of-source behaviour). -/
def beAt (bs : List Nat) (pos n : Nat) : Nat :=
  (readMultiByte { data := bs, pos := pos, opened := true } n).1

/-- The 4-byte chunk magic at absolute offset `pos` matches `m` (an exact
match of the four bytes, which also requires them to be present). -/
def magic4 (bs : List Nat) (pos : Nat) (m : List Nat) : Prop :=
  ((bs.drop pos).take 4).map (· % 256) = m

instance (bs : List Nat) (pos : Nat) (m : List Nat) : Decidable (magic4 bs pos m) := by
  unfold magic4; infer_instance

/-- Claim C1's track-level result codes, per track index: `10*(i+1)` when the
track magic at `pos` is wrong, `10*(i+1)+1` when the declared length seeks
past the end of the source, else on to the next track; `-1` when the fuel
(the track count) is exhausted. -/
def trackLoadSpec (bs : List Nat) : Nat → Nat → Nat → Int
  | _, _, 0 => -1
  | pos, i, fuel + 1 =>
    if ¬ magic4 bs pos mtrkBytes then 10 * ((i : Int) + 1)
    else
      let len := beAt bs (pos + 4) 4
      let startOffset := min (pos + 8) bs.length
      let target := u32 (startOffset + len)
      if bs.length < target then 10 * ((i : Int) + 1) + 1
      else trackLoadSpec bs target (i + 1) fuel

/-- Claim C1's code 7 for an unsupported SMPTE frame rate (the time-division
field at bytes 12-13), else the per-track codes for the `ntrk` declared
tracks starting right after the 14-byte header (clipped to the source). -/
def loadSpecDivision (bs : List Nat) (ntrk : Nat) : Int :=
  let dv := u16 (beAt bs 12 2)
  if dv &&& 0x8000 ≠ 0 ∧
      ¬ ((dv >>> 8) &&& 0xFF = 232 ∨ (dv >>> 8) &&& 0xFF = 231 ∨
         (dv >>> 8) &&& 0xFF = 227 ∨ (dv >>> 8) &&& 0xFF = 226) then 7
  else trackLoadSpec bs (min 14 bs.length) 0 ntrk

/-- Claim C1's codes 6 (format 0 with a track count other than 1, from bytes
10-11) and 7 (track count over the configured maximum), else onward. -/
def loadSpecNTracks (bs : List Nat) (fmt : Nat) : Int :=
  let ntrk := u16 (beAt bs 10 2)
  if fmt = 0 ∧ ntrk ≠ 1 then 6
  else if MIDI_MAX_TRACKS < ntrk then 7
  else loadSpecDivision bs ntrk

/-- Claim C1's code 5 (format, at bytes 8-9, neither 0 nor 1), else
onward. -/
def loadSpecFormat (bs : List Nat) : Int :=
  let fmt := u16 (beAt bs 8 2)
  if fmt ≠ 0 ∧ fmt ≠ 1 then 5
  else loadSpecNTracks bs fmt

/-- Claim C1's codes 3 (file magic at offset 0 not MThd) and 4 (4-byte
header length field not 6), else onward. -/
def loadSpecHeader (bs : List Nat) : Int :=
  if ¬ magic4 bs 0 mthdBytes then 3
  else if beAt bs 4 4 ≠ 6 then 4
  else loadSpecFormat bs

/-- Claim C1's load result code as a function of the filename and the
container bytes: the discriminated codes in the claimed check order
(0 empty filename, 2 open failure, then the header and track codes). -/
def loadSpec (fileName : List Nat) (openOK : Bool) (bs : List Nat) : Int :=
  if fileName = [] then 0
  else if openOK = false then 2
  else loadSpecHeader bs

/-- Running a sequence of `tickClock` samples, summing the returned tick
counts (the sum is a specification-level total, not a machine integer). -/
def tickClockRun (s : MD_MIDIFile) : List Nat → Nat × MD_MIDIFile
  | [] => (0, s)
  | t :: ts =>
    let r := s.tickClock t
    let rs := tickClockRun r.2 ts
    (r.1 + rs.1, rs.2)

/-- Three consecutive `parseEvent` calls on one track, collecting what each
dispatches (for the running-status scenario of claim C4). -/
def parseEvents3 (tk : MD_MFTrack) (mf : MD_MIDIFile) : List DispatchedEvent :=
  match tk.parseEvent mf with
  | none => []
  | some (tk1, mf1, evs1) =>
    match tk1.parseEvent mf1 with
    | none => evs1
    | some (tk2, mf2, evs2) =>
      match tk2.parseEvent mf2 with
      | none => evs1 ++ evs2
      | some (_, _, evs3) => evs1 ++ evs2 ++ evs3

/-- The spec's VLQ value of a byte sequence: the low 7 bits of each byte,
earlier bytes more significant. -/
def vlqVal (cs : List Nat) : Nat :=
  cs.foldl (fun a c => a * 128 + c % 128) 0

/-- Two track cursors agree on everything except the remembered
running-status header `_mev`. -/
def eqExceptMev (a b : MD_MFTrack) : Prop :=
  a.trackId = b.trackId ∧ a.length = b.length ∧ a.startOffset = b.startOffset ∧
  a.currOffset = b.currOffset ∧ a.endOfTrack = b.endOfTrack ∧
  a.elapsedTicks = b.elapsedTicks

instance (a b : MD_MFTrack) : Decidable (eqExceptMev a b) := by
  unfold eqExceptMev; infer_instance

/-- Claim C3's recomputed tick duration in exact integer arithmetic. -/
def tickTimeFormula (s : MD_MIDIFile) : Nat :=
  ((60000000 / ((s.tempo : Int) + s.tempoDelta).toNat) * 4) /
    (s.timeSigDen * s.ticksPerQuarterNote)

/-- Claim C3's contract for one recomputation: the formula holds when
`tempo + adjustment` is positive and both divisors are nonzero; the previous
tick duration is retained when a divisor is zero or `tempo + adjustment`
vanishes. -/
def tickTimeSpec (pre post : MD_MIDIFile) : Prop :=
  (0 < (post.tempo : Int) + post.tempoDelta → post.timeSigDen ≠ 0 →
    post.ticksPerQuarterNote ≠ 0 → post.tickTime = tickTimeFormula post) ∧
  (((post.tempo : Int) + post.tempoDelta = 0 ∨ post.timeSigDen = 0 ∨
      post.ticksPerQuarterNote = 0) → post.tickTime = pre.tickTime)

/-- The scalar state of `MD_MIDIFile` that `load` must not change: the
projection fixes the byte source, the track array, and the fields `load`
legitimately writes (`format`, `trackCount`, `ticksPerQuarterNote`,
`tickTime`), so equality under it says everything else is untouched. -/
def loadScalarPart (s : MD_MIDIFile) : MD_MIDIFile :=
  { s with trackCount := 0, format := 0, tickTime := 0, ticksPerQuarterNote := 0,
           fd := { data := [], pos := 0, opened := false }, track := [] }

/-- Stage contract of the `load` pipeline: the stage changes only the byte
source, the fields `loadScalarPart` erases, and the track entries below the
resulting track count. -/
def loadPreserves (f : MD_MIDIFile → Int × MD_MIDIFile) : Prop :=
  ∀ s : MD_MIDIFile,
    loadScalarPart (f s).2 = loadScalarPart s ∧
    (f s).2.track.length = s.track.length ∧
    ∀ j, (f s).2.trackCount ≤ j →
      (f s).2.track.getD j trackDefault = s.track.getD j trackDefault

/-! ## Lemmas and claim theorems -/

lemma u32_eq_of_lt {n : Nat} (h : n < 4294967296) : u32 n = n := Nat.mod_eq_of_lt h

lemma u16_eq_of_lt {n : Nat} (h : n < 65536) : u16 n = n := Nat.mod_eq_of_lt h

lemma sub32_eq {a b : Nat} (hba : b ≤ a) (h : a - b < 4294967296)
    (_hb : b < 4294967296) : sub32 a b = a - b := by
  unfold sub32 u32; omega

lemma emod_toNat_small (q : Nat) (h : q < 4294967296) :
    (Int.emod (q : Int) 4294967296).toNat = q := by
  show ((q : Int) % 4294967296).toNat = q
  omega

lemma calcTickTime_spec (s : MD_MIDIFile) : tickTimeSpec s s.calcTickTime := by
  unfold MD_MIDIFile.calcTickTime tickTimeSpec
  split
  · rename_i hcond
    obtain ⟨hs, hq, hd⟩ := hcond
    refine ⟨?_, ?_⟩
    · intro hpos0 _ _
      have hpos : 0 < (s.tempo : Int) + s.tempoDelta := hpos0
      show (((Int.tdiv 60000000 ((s.tempo : Int) + s.tempoDelta)).emod 4294967296).toNat
              * 4) % 4294967296 / (s.timeSigDen * s.ticksPerQuarterNote)
            = tickTimeFormula s
      have hk : ((s.tempo : Int) + s.tempoDelta) = (((s.tempo : Int) + s.tempoDelta).toNat : Int) :=
        (Int.toNat_of_nonneg (le_of_lt hpos)).symm
      have htd : Int.tdiv 60000000 ((s.tempo : Int) + s.tempoDelta)
          = ((60000000 / ((s.tempo : Int) + s.tempoDelta).toNat : Nat) : Int) := by
        conv_lhs => rw [hk]
        exact_mod_cast (Int.ofNat_tdiv 60000000 (((s.tempo : Int) + s.tempoDelta).toNat)).symm
      have hle : (60000000 / ((s.tempo : Int) + s.tempoDelta).toNat : Nat) ≤ 60000000 :=
        Nat.div_le_self _ _
      rw [htd, emod_toNat_small _ (by omega), Nat.mod_eq_of_lt (by omega)]
      rfl
    · intro hzero
      rcases hzero with h0 | h0 | h0
      · exact absurd h0 hs
      · exact absurd h0 hd
      · exact absurd h0 hq
  · rename_i hcond
    push_neg at hcond
    refine ⟨?_, fun _ => rfl⟩
    intro hpos0 hd0 hq0
    have hpos : 0 < (s.tempo : Int) + s.tempoDelta := hpos0
    have hd : s.timeSigDen ≠ 0 := hd0
    have hq : s.ticksPerQuarterNote ≠ 0 := hq0
    rcases Decidable.em ((s.tempo : Int) + s.tempoDelta = 0) with h0 | h0
    · omega
    · exact absurd (hcond h0 hq) hd

/-- Claim C3 (corrected): the claim asserts retention of the stale tick
duration whenever `tempo + adjustment ≤ 0`, but the guard in `calcTickTime`
only skips when the sum is exactly zero; a negative sum recomputes (with the
wrapped signed division).  Concretely: from the fresh state,
`setTempoAdjust(-20)` (accepted, tempo 120) then
`setMicrosecondPerQuarterNote(6000001)` (tempo becomes 9, so
tempo + adjustment = -11 < 0) changes the tick duration from 12500 to
22255984 instead of retaining it. -/
theorem tick_duration_skip_counterexample :
    ((((MD_MIDIFile.new.setTempoAdjust (-20)).setMicrosecondPerQuarterNote 6000001).tempo : Int)
        + ((MD_MIDIFile.new.setTempoAdjust (-20)).setMicrosecondPerQuarterNote 6000001).tempoDelta ≤ 0)
    ∧ ((MD_MIDIFile.new.setTempoAdjust (-20)).setMicrosecondPerQuarterNote 6000001).timeSigDen ≠ 0
    ∧ ((MD_MIDIFile.new.setTempoAdjust (-20)).setMicrosecondPerQuarterNote 6000001).ticksPerQuarterNote ≠ 0
    ∧ ((MD_MIDIFile.new.setTempoAdjust (-20)).setMicrosecondPerQuarterNote 6000001).tickTime
        ≠ (MD_MIDIFile.new.setTempoAdjust (-20)).tickTime := by
  decide

/-- Claim C3 (amended): after every setter that can affect it, the derived
tick duration equals `((60000000 / (tempo+adjustment)) * 4) /
(timeSigDenominator * ticksPerQuarterNote)` in exact integer arithmetic
whenever `tempo+adjustment > 0` and both `timeSigDenominator` and
`ticksPerQuarterNote` are nonzero; recomputation is skipped (the previous
tick duration retained) whenever `timeSigDenominator` or
`ticksPerQuarterNote` is zero or `tempo+adjustment` is exactly zero (a
negative sum recomputes with the wrapped signed division). -/
theorem tick_duration_formula_amended (s : MD_MIDIFile) (t : Nat) (a : Int)
    (n d q m : Nat) :
    tickTimeSpec s (s.setTempo t) ∧ tickTimeSpec s (s.setTempoAdjust a) ∧
    tickTimeSpec s (s.setTicksPerQuarterNote q) ∧
    tickTimeSpec s (s.setTimeSignature n d) ∧
    tickTimeSpec s (s.setMicrosecondPerQuarterNote m) := by
  refine ⟨?_, ?_, ?_, ?_, ?_⟩
  · unfold MD_MIDIFile.setTempo
    split <;> exact calcTickTime_spec _
  · unfold MD_MIDIFile.setTempoAdjust
    split <;> exact calcTickTime_spec _
  · exact calcTickTime_spec _
  · exact calcTickTime_spec _
  · exact calcTickTime_spec _

/-- Witness for the amended claim C3 at a concrete state. -/
theorem tick_duration_formula_amended_witness :
    (MD_MIDIFile.new.setTempo 100).tickTime = tickTimeFormula (MD_MIDIFile.new.setTempo 100) :=
  (tick_duration_formula_amended MD_MIDIFile.new 100 0 0 0 0 0).1.1
    (by decide) (by decide) (by decide)

lemma tickClock_exact (s : MD_MIDIFile) (now : Nat)
    (h1 : s.lastTickCheckTime ≤ now) (h2 : now < 4294967296)
    (h3 : s.lastTickError + (now - s.lastTickCheckTime) < 4294967296)
    (h4 : s.lastTickError + (now - s.lastTickCheckTime) < s.tickTime * 65536)
    (h5 : 0 < s.tickTime) :
    s.tickClock now =
      if s.lastTickError + (now - s.lastTickCheckTime) < s.tickTime then (0, s)
      else ((s.lastTickError + (now - s.lastTickCheckTime)) / s.tickTime,
            { s with lastTickError := (s.lastTickError + (now - s.lastTickCheckTime)) % s.tickTime,
                     lastTickCheckTime := now }) := by
  have hnow : u32 now = now := u32_eq_of_lt h2
  have helap : sub32 (s.lastTickError + u32 now) s.lastTickCheckTime
      = s.lastTickError + (now - s.lastTickCheckTime) := by
    rw [hnow]; unfold sub32 u32; omega
  set e := s.lastTickError + (now - s.lastTickCheckTime) with hedef
  unfold MD_MIDIFile.tickClock
  rw [helap, hnow]
  rcases Nat.lt_or_ge e s.tickTime with hlt | hge
  · rw [if_neg (by omega), if_pos hlt]
  · rw [if_pos hge, if_neg (by omega)]
    have hdiv : e / s.tickTime < 65536 := by
      rw [Nat.div_lt_iff_lt_mul h5]; omega
    have hticks : u16 (e / s.tickTime) = e / s.tickTime := u16_eq_of_lt hdiv
    dsimp only
    have hmul : s.tickTime * (e / s.tickTime) ≤ e := Nat.mul_div_le e s.tickTime
    have hu : u32 (s.tickTime * (e / s.tickTime)) = s.tickTime * (e / s.tickTime) :=
      u32_eq_of_lt (by omega)
    have hsub : sub32 e (s.tickTime * (e / s.tickTime)) = e % s.tickTime := by
      have hmd := Nat.mod_add_div e s.tickTime
      unfold sub32 u32; omega
    rw [hticks, hu, hsub]

lemma tickClockRun_nil (s : MD_MIDIFile) : tickClockRun s [] = (0, s) := rfl

lemma tickClockRun_cons (s : MD_MIDIFile) (t : Nat) (ts : List Nat) :
    tickClockRun s (t :: ts)
      = ((s.tickClock t).1 + (tickClockRun (s.tickClock t).2 ts).1,
         (tickClockRun (s.tickClock t).2 ts).2) := rfl

lemma tickClockRun_telescope (ts : List Nat) :
    ∀ (s : MD_MIDIFile) (tN : Nat),
      ts ≠ [] →
      List.Chain (· ≤ ·) s.lastTickCheckTime ts →
      (∀ t ∈ ts, t ≤ tN) →
      ts.getLast? = some tN →
      tN < 4294967296 →
      0 < s.tickTime →
      s.lastTickError + (tN - s.lastTickCheckTime) < 4294967296 →
      s.lastTickError + (tN - s.lastTickCheckTime) < s.tickTime * 65536 →
      s.tickTime * (tickClockRun s ts).1
          + ((tickClockRun s ts).2.lastTickError + (tN - (tickClockRun s ts).2.lastTickCheckTime))
        = s.lastTickError + (tN - s.lastTickCheckTime)
      ∧ (tickClockRun s ts).2.lastTickError + (tN - (tickClockRun s ts).2.lastTickCheckTime)
          < s.tickTime
      ∧ s.lastTickCheckTime ≤ (tickClockRun s ts).2.lastTickCheckTime
      ∧ (tickClockRun s ts).2.lastTickCheckTime ≤ tN
      ∧ (tickClockRun s ts).2.tickTime = s.tickTime := by
  induction ts with
  | nil => intro s tN hne; exact absurd rfl hne
  | cons t ts ih =>
    intro s tN _ hchain hmem hlast htN hT h3 h4
    have h1 : s.lastTickCheckTime ≤ t := (List.chain_cons.mp hchain).1
    have htle : t ≤ tN := hmem t (List.mem_cons_self t ts)
    have hstep := tickClock_exact s t h1 (by omega) (by omega) (by omega) hT
    rw [tickClockRun_cons, hstep]
    rcases Nat.lt_or_ge (s.lastTickError + (t - s.lastTickCheckTime)) s.tickTime with hlt | hge
    · rw [if_pos hlt]
      dsimp only
      cases ts with
      | nil =>
        have ht : t = tN := by simpa using hlast
        rw [tickClockRun_nil]
        dsimp only
        refine ⟨by omega, by omega, le_refl _, by omega, rfl⟩
      | cons t' rest =>
        have hchain' : List.Chain (· ≤ ·) s.lastTickCheckTime (t' :: rest) :=
          List.chain_cons.mpr
            ⟨le_trans h1 (List.chain_cons.mp (List.chain_cons.mp hchain).2).1,
             (List.chain_cons.mp (List.chain_cons.mp hchain).2).2⟩
        have hlast' : (t' :: rest).getLast? = some tN := by
          rw [← List.getLast?_cons_cons (a := t)]; exact hlast
        have hmem' : ∀ x ∈ t' :: rest, x ≤ tN := fun x hx => hmem x (List.mem_cons_of_mem _ hx)
        have hrec := ih s tN (by simp) hchain' hmem' hlast' htN hT h3 h4
        obtain ⟨e1, e2, e3, e4, e5⟩ := hrec
        rw [Nat.zero_add]
        exact ⟨e1, e2, e3, e4, e5⟩
    · rw [if_neg (by omega)]
      dsimp only
      have hmd := Nat.mod_add_div (s.lastTickError + (t - s.lastTickCheckTime)) s.tickTime
      have hmodlt : (s.lastTickError + (t - s.lastTickCheckTime)) % s.tickTime < s.tickTime :=
        Nat.mod_lt _ hT
      cases ts with
      | nil =>
        have ht : t = tN := by simpa using hlast
        rw [tickClockRun_nil]
        dsimp only
        rw [Nat.mul_add]
        refine ⟨by omega, by omega, by omega, by omega, rfl⟩
      | cons t' rest =>
        have htt' : t ≤ t' := (List.chain_cons.mp (List.chain_cons.mp hchain).2).1
        have hchain' : List.Chain (· ≤ ·) t (t' :: rest) := (List.chain_cons.mp hchain).2
        have hlast' : (t' :: rest).getLast? = some tN := by
          rw [← List.getLast?_cons_cons (a := t)]; exact hlast
        have hmem' : ∀ x ∈ t' :: rest, x ≤ tN := fun x hx => hmem x (List.mem_cons_of_mem _ hx)
        have hrec := ih
          { s with lastTickError := (s.lastTickError + (t - s.lastTickCheckTime)) % s.tickTime,
                   lastTickCheckTime := t } tN (by simp) hchain' hmem' hlast' htN hT
          (by dsimp only; omega) (by dsimp only; omega)
        dsimp only at hrec
        obtain ⟨e1, e2, e3, e4, e5⟩ := hrec
        rw [Nat.mul_add]
        exact ⟨by omega, by omega, by omega, e4, e5⟩

/-- Claim C2 (corrected): with a tick duration of 1 microsecond, zero carried
error, and a single sample after 65536 microseconds (K = 65536), the
`uint16_t` tick counter truncates `65536 / 1` to 0, so the reported total is
0, not K; the claim's partition-independent exact sum therefore fails as
stated. -/
theorem tick_sum_counterexample :
    0 < ({ MD_MIDIFile.new with tickTime := 1 } : MD_MIDIFile).tickTime
    ∧ ({ MD_MIDIFile.new with tickTime := 1 } : MD_MIDIFile).lastTickError = 0
    ∧ List.Chain (· ≤ ·)
        ({ MD_MIDIFile.new with tickTime := 1 } : MD_MIDIFile).lastTickCheckTime [65536]
    ∧ ([65536] : List Nat).getLast? = some 65536
    ∧ 65536 - ({ MD_MIDIFile.new with tickTime := 1 } : MD_MIDIFile).lastTickCheckTime
        = 65536 * ({ MD_MIDIFile.new with tickTime := 1 } : MD_MIDIFile).tickTime
    ∧ (tickClockRun ({ MD_MIDIFile.new with tickTime := 1 } : MD_MIDIFile) [65536]).1 ≠ 65536 := by
  refine ⟨by decide, by decide, ?_, by decide, by decide, by decide⟩
  exact List.Chain.cons (by decide) List.Chain.nil

/-- Claim C2 (amended): for every clock state with tick duration `T > 0` and
zero carried error, and every nondecreasing sequence of sample instants whose
total elapsed wall-clock time is exactly `K * T` microseconds with
`K < 65536` (so no report truncates in the `uint16_t` tick counter) and the
final instant below 2^32 (no `uint32_t` wrap), the tick counts returned by
the successive `tickClock` calls sum to exactly `K`, however the interval is
partitioned; and a call whose accumulated elapsed time (carried error plus
time since the last accepted sample) is less than the tick duration returns
0 and leaves the carried error and last-sample timestamp unchanged. -/
theorem tick_sum_amended :
    (∀ (s : MD_MIDIFile) (ts : List Nat) (tN K : Nat),
      0 < s.tickTime → s.lastTickError = 0 →
      List.Chain (· ≤ ·) s.lastTickCheckTime ts →
      (∀ t ∈ ts, t ≤ tN) → ts.getLast? = some tN →
      tN < 4294967296 → K < 65536 →
      tN - s.lastTickCheckTime = K * s.tickTime →
      (tickClockRun s ts).1 = K)
    ∧ (∀ (s : MD_MIDIFile) (now : Nat),
        sub32 (s.lastTickError + u32 now) s.lastTickCheckTime < s.tickTime →
        s.tickClock now = (0, s)) := by
  constructor
  · intro s ts tN K hT herr hchain hmem hlast htN hK htotal
    have hne : ts ≠ [] := by
      intro h; rw [h] at hlast; exact Option.noConfusion hlast
    have hKT : K * s.tickTime < s.tickTime * 65536 := by
      rw [Nat.mul_comm s.tickTime 65536]
      exact Nat.mul_lt_mul_of_lt_of_le hK (le_refl s.tickTime) hT
    have htel := tickClockRun_telescope ts s tN hne hchain hmem hlast htN hT
      (by omega) (by omega)
    obtain ⟨e1, e2, _, _, _⟩ := htel
    rw [herr, htotal] at e1
    set n := (tickClockRun s ts).1 with hn
    set resid := (tickClockRun s ts).2.lastTickError
        + (tN - (tickClockRun s ts).2.lastTickCheckTime) with hr
    have hnK : n ≤ K := by
      have h1 : s.tickTime * n ≤ s.tickTime * K := by
        rw [Nat.mul_comm s.tickTime K]; omega
      exact Nat.le_of_mul_le_mul_left h1 hT
    have hKn : K < n + 1 := by
      have h2 : s.tickTime * K < s.tickTime * (n + 1) := by
        rw [Nat.mul_succ, Nat.mul_comm s.tickTime K]; omega
      exact Nat.lt_of_mul_lt_mul_left h2
    omega
  · intro s now hlt
    unfold MD_MIDIFile.tickClock
    rw [if_neg (by omega)]

/-- Witness for the amended claim C2: three samples partitioning 10 tick
durations report 10 ticks in total. -/
theorem tick_sum_amended_witness :
    (tickClockRun ({ MD_MIDIFile.new with tickTime := 1 } : MD_MIDIFile) [3, 7, 10]).1 = 10 :=
  tick_sum_amended.1 ({ MD_MIDIFile.new with tickTime := 1 } : MD_MIDIFile) [3, 7, 10] 10 10
    (by decide) (by decide)
    (List.Chain.cons (by decide) (List.Chain.cons (by decide)
      (List.Chain.cons (by decide) List.Chain.nil)))
    (by decide) (by decide) (by decide) (by decide) (by decide)

lemma forRange_getD (f : MD_MFTrack → MD_MFTrack) (lo hi : Nat) :
    ∀ (ts : List MD_MFTrack) (idx i : Nat) (d : MD_MFTrack),
      (forRange f lo hi ts idx).getD i d
        = if i < ts.length then
            (if lo ≤ idx + i ∧ idx + i < hi then f (ts.getD i d) else ts.getD i d)
          else d
  | [], idx, i, d => by simp [forRange]
  | t :: rest, idx, 0, d => by simp [forRange]
  | t :: rest, idx, i + 1, d => by
    simp only [forRange, List.getD_cons_succ, List.length_cons]
    rw [forRange_getD f lo hi rest (idx + 1) i d]
    have hadd : idx + 1 + i = idx + (i + 1) := by omega
    rw [hadd]
    exact if_congr (by omega) rfl rfl

lemma forRange_hi_zero (f : MD_MFTrack → MD_MFTrack) (lo : Nat) :
    ∀ (ts : List MD_MFTrack) (idx : Nat), forRange f lo 0 ts idx = ts
  | [], _ => rfl
  | t :: rest, idx => by
    simp [forRange, forRange_hi_zero f lo rest (idx + 1)]

/-- Claim C9: for every loaded MidiFile, `restart` resets the read position,
end-of-track flag and accumulated tick count of every Track Cursor and marks
resynchronisation pending, except that with looping enabled and more than one
track, track 0's cursor is left entirely unchanged (with a single track,
track 0 is always rewound, since the exception requires more than one
track). -/
theorem restart_rewinds_tracks (s : MD_MIDIFile)
    (hlen : s.track.length = MIDI_MAX_TRACKS) (hc : s.trackCount ≤ MIDI_MAX_TRACKS) :
    (s.restart).syncAtStart = false
    ∧ (∀ i, i < s.trackCount → ¬(s.looping ∧ 1 < s.trackCount ∧ i = 0) →
        (s.restart).track.getD i trackDefault
          = { s.track.getD i trackDefault with
                currOffset := 0, endOfTrack := false, elapsedTicks := 0 })
    ∧ (s.looping ∧ 1 < s.trackCount →
        (s.restart).track.getD 0 trackDefault = s.track.getD 0 trackDefault) := by
  have h16 : MIDI_MAX_TRACKS = 16 := rfl
  refine ⟨rfl, ?_, ?_⟩
  · intro i hi hnot
    show (forRange MD_MFTrack.restart (if s.looping ∧ 1 < s.trackCount then 1 else 0)
        s.trackCount s.track 0).getD i trackDefault = _
    rw [forRange_getD, if_pos (by omega), if_pos ?hcond]
    · rfl
    case hcond =>
      refine ⟨?_, by omega⟩
      split
      · rename_i hb
        have hiz : i ≠ 0 := fun hz => hnot ⟨hb.1, hb.2, hz⟩
        omega
      · omega
  · intro hb
    show (forRange MD_MFTrack.restart (if s.looping ∧ 1 < s.trackCount then 1 else 0)
        s.trackCount s.track 0).getD 0 trackDefault = _
    rw [forRange_getD, if_pos (by omega), if_neg ?hcond2]
    case hcond2 =>
      rw [if_pos hb]
      omega

/-- Witness for claim C9 at the fresh state. -/
theorem restart_rewinds_tracks_witness :
    (MD_MIDIFile.new.restart).syncAtStart = false :=
  (restart_rewinds_tracks MD_MIDIFile.new (by decide) (by decide)).1

/-- Claim C10: with no tracks loaded, `isEOF` reports true when looping is
disabled (the all-tracks-ended scan holds vacuously); with looping enabled
it instead calls `restart` (whose only effect with zero tracks is to mark
resynchronisation pending) and reports false. -/
theorem isEOF_no_tracks (s : MD_MIDIFile) (h : s.trackCount = 0) :
    s.isEOF = (if s.looping then (false, { s with syncAtStart := false }) else (true, s)) := by
  have hres : s.restart = { s with syncAtStart := false } := by
    unfold MD_MIDIFile.restart
    rw [h, forRange_hi_zero]
  unfold MD_MIDIFile.isEOF
  have hall : allEnded s.track s.trackCount = true := by rw [h]; rfl
  dsimp only
  rw [hall, hres]
  by_cases hl : s.looping
  · rw [if_pos ⟨rfl, hl⟩, if_pos hl]
  · rw [if_neg (fun hc2 => hl hc2.2), if_neg hl]

/-- Witness for claim C10 at the fresh state. -/
theorem isEOF_no_tracks_witness :
    MD_MIDIFile.new.isEOF
      = (if MD_MIDIFile.new.looping then
          (false, { MD_MIDIFile.new with syncAtStart := false })
         else (true, MD_MIDIFile.new)) :=
  isEOF_no_tracks MD_MIDIFile.new (by decide)

lemma getD_of_drop_cons {bs : List Nat} {pos c : Nat} {t : List Nat}
    (h : bs.drop pos = c :: t) :
    bs.getD pos 0 = c ∧ pos < bs.length ∧ bs.drop (pos + 1) = t := by
  have hlt : pos < bs.length := by
    by_contra hc
    rw [List.drop_eq_nil_of_le (by omega)] at h
    exact List.noConfusion h
  refine ⟨?_, hlt, ?_⟩
  · have hh : (bs.drop pos).head? = some c := by rw [h]; rfl
    rw [List.head?_drop] at hh
    rw [List.getD_eq_getElem?_getD, hh]
    rfl
  · have h2 : (bs.drop pos).drop 1 = t := by rw [h]; rfl
    rw [List.drop_drop] at h2
    simpa [Nat.add_comm] using h2

lemma readVarLenAux_run :
    ∀ (pre : List Nat) (b : Nat) (bs : List Nat) (pos acc fuel : Nat) (op : Bool),
      (bs.drop pos).take (pre.length + 1) = pre ++ [b] →
      (∀ c ∈ pre, 128 ≤ c ∧ c < 256) →
      b < 128 →
      pre.length + 1 ≤ fuel →
      readVarLenAux fuel acc { data := bs, pos := pos, opened := op }
        = some ((pre ++ [b]).foldl (fun a c => u32 (a * 128 + c % 128)) acc,
                { data := bs, pos := pos + (pre.length + 1), opened := op })
  | [], b, bs, pos, acc, fuel, op => by
    intro hslice _ hb hfuel
    cases hdrop : bs.drop pos with
    | nil => rw [hdrop] at hslice; exact absurd hslice (by simp)
    | cons c t =>
      rw [hdrop] at hslice
      simp only [List.length_nil, List.take, List.nil_append] at hslice
      have hcb : c = b := by simpa using hslice
      subst hcb
      obtain ⟨hget, hlt, _⟩ := getD_of_drop_cons hdrop
      obtain ⟨fuel', rfl⟩ : ∃ k, fuel = k + 1 := ⟨fuel - 1, by omega⟩
      show readVarLenAux (fuel' + 1) acc _ = _
      unfold readVarLenAux
      rw [if_pos hlt]
      have hbyte : byteAt bs pos = c := by
        unfold byteAt; rw [hget]; exact Nat.mod_eq_of_lt (by omega)
      rw [hbyte, if_neg (by omega)]
      rfl
  | c :: pre, b, bs, pos, acc, fuel, op => by
    intro hslice hpre hb hfuel
    cases hdrop : bs.drop pos with
    | nil => rw [hdrop] at hslice; exact absurd hslice (by simp)
    | cons c0 t =>
      rw [hdrop] at hslice
      simp only [List.length_cons, List.take, List.cons_append] at hslice
      obtain ⟨hc0, hslice'⟩ : c0 = c ∧ t.take (pre.length + 1) = pre ++ [b] := by
        have := List.cons.injEq c0 (t.take (pre.length + 1)) c (pre ++ [b]) ▸ hslice
        exact ⟨(List.cons.inj hslice).1, (List.cons.inj hslice).2⟩
      subst hc0
      obtain ⟨hget, hlt, hdrop'⟩ := getD_of_drop_cons hdrop
      obtain ⟨hc128, hc256⟩ := hpre c0 (List.mem_cons_self _ _)
      obtain ⟨fuel', rfl⟩ : ∃ k, fuel = k + 1 := ⟨fuel - 1, by omega⟩
      show readVarLenAux (fuel' + 1) acc _ = _
      unfold readVarLenAux
      rw [if_pos hlt]
      have hbyte : byteAt bs pos = c0 := by
        unfold byteAt; rw [hget]; exact Nat.mod_eq_of_lt hc256
      rw [hbyte, if_pos (by omega)]
      have hrec := readVarLenAux_run pre b bs (pos + 1) (u32 (acc * 128 + c0 % 128)) fuel' op
        (by rw [hdrop']; exact hslice') (fun x hx => hpre x (List.mem_cons_of_mem _ hx)) hb
        (by simp only [List.length_cons] at hfuel; omega)
      rw [hrec]
      have hp : pos + 1 + (pre.length + 1) = pos + ((c0 :: pre).length + 1) := by
        simp only [List.length_cons]; omega
      rw [hp]
      simp only [List.cons_append, List.foldl_cons]

lemma vlq_foldl_mod :
    ∀ (l : List Nat) (a1 a2 : Nat), a1 % 4294967296 = a2 % 4294967296 →
      (l.foldl (fun a c => a * 128 + c % 128) a1) % 4294967296
        = (l.foldl (fun a c => a * 128 + c % 128) a2) % 4294967296
  | [], _, _, h => h
  | c :: t, a1, a2, h => by
    simp only [List.foldl_cons]
    exact vlq_foldl_mod t _ _ (by omega)

lemma foldl_u32_eq (l : List Nat) :
    ∀ (acc : Nat),
      l.foldl (fun a c => u32 (a * 128 + c % 128)) (u32 acc)
        = u32 (l.foldl (fun a c => a * 128 + c % 128) acc) := by
  induction l with
  | nil => intro acc; rfl
  | cons c t ih =>
    intro acc
    simp only [List.foldl_cons]
    have h1 : u32 (u32 acc * 128 + c % 128) = u32 (u32 (acc * 128 + c % 128)) := by
      unfold u32; omega
    rw [h1, ih]
    have h2 := vlq_foldl_mod t (u32 (acc * 128 + c % 128)) (acc * 128 + c % 128)
      (by unfold u32; omega)
    unfold u32
    exact h2

/-- Claim C8: `readVarLen` accumulates the low 7 bits of each byte read
(previous result shifted left 7, on the `uint32_t` accumulator) and stops
after the first byte whose top bit is clear; in particular it decodes
`0x81 0x00` to 128, `0x00` to 0 and `0xFF 0x7F` to 16383. -/
theorem readVarLen_spec :
    (∀ (bs : List Nat) (pos : Nat) (op : Bool) (pre : List Nat) (b : Nat),
      (bs.drop pos).take (pre.length + 1) = pre ++ [b] →
      (∀ c ∈ pre, 128 ≤ c ∧ c < 256) →
      b < 128 →
      readVarLen { data := bs, pos := pos, opened := op }
        = some (u32 (vlqVal (pre ++ [b])),
                { data := bs, pos := pos + (pre.length + 1), opened := op }))
    ∧ readVarLen { data := [0x81, 0x00], pos := 0, opened := true }
        = some (128, { data := [0x81, 0x00], pos := 2, opened := true })
    ∧ readVarLen { data := [0x00], pos := 0, opened := true }
        = some (0, { data := [0x00], pos := 1, opened := true })
    ∧ readVarLen { data := [0xFF, 0x7F], pos := 0, opened := true }
        = some (16383, { data := [0xFF, 0x7F], pos := 2, opened := true }) := by
  refine ⟨?_, by decide, by decide, by decide⟩
  intro bs pos op pre b hslice hpre hb
  have hlen : pre.length + 1 ≤ bs.length - pos := by
    have := congrArg List.length hslice
    simp only [List.length_take, List.length_drop, List.length_append,
      List.length_cons, List.length_nil] at this
    omega
  unfold readVarLen
  rw [readVarLenAux_run pre b bs pos 0 (bs.length - pos) op hslice hpre hb hlen]
  have h0 : (0 : Nat) = u32 0 := rfl
  rw [h0, foldl_u32_eq]
  rfl

/-- Witness for claim C8's general clause at the bytes `0x81 0x00`. -/
theorem readVarLen_spec_witness :
    readVarLen { data := [129, 0], pos := 0, opened := true }
      = some (u32 (vlqVal ([129] ++ [0])),
              { data := [129, 0], pos := 0 + (1 + 1), opened := true }) :=
  readVarLen_spec.1 [129, 0] 0 true [129] 0 (by decide) (by decide) (by decide)

lemma read8_eq (f : SdFile) (h : f.pos < f.data.length) :
    SdFile.read8 f = (byteAt f.data f.pos, { f with pos := f.pos + 1 }) := by
  unfold SdFile.read8 SdFile.read
  rw [if_pos h]
  dsimp only
  congr 1
  have hb : byteAt f.data f.pos < 256 := Nat.mod_lt _ (by omega)
  show ((↑(byteAt f.data f.pos) : Int) % 256).toNat = byteAt f.data f.pos
  omega

lemma parseMidi2_mono {tk tk' : MD_MFTrack} {mf mf' : MD_MIDIFile} {e : Nat}
    {evs : List DispatchedEvent} (heq : parseMidi2 tk mf e = some (tk', mf', evs)) :
    tk'.endOfTrack = tk.endOfTrack := by
  unfold parseMidi2 at heq
  simp only [Option.some.injEq, Prod.mk.injEq] at heq
  obtain ⟨h1, -, -⟩ := heq
  rw [← h1]

lemma parseMidi1_mono {tk tk' : MD_MFTrack} {mf mf' : MD_MIDIFile} {e : Nat}
    {evs : List DispatchedEvent} (heq : parseMidi1 tk mf e = some (tk', mf', evs)) :
    tk'.endOfTrack = tk.endOfTrack := by
  unfold parseMidi1 at heq
  simp only [Option.some.injEq, Prod.mk.injEq] at heq
  obtain ⟨h1, -, -⟩ := heq
  rw [← h1]

lemma parseRunOn_mono {tk tk' : MD_MFTrack} {mf mf' : MD_MIDIFile} {e : Nat}
    {evs : List DispatchedEvent} (heq : parseRunOn tk mf e = some (tk', mf', evs)) :
    tk'.endOfTrack = tk.endOfTrack := by
  unfold parseRunOn at heq
  simp only [Option.some.injEq, Prod.mk.injEq] at heq
  obtain ⟨h1, -, -⟩ := heq
  rw [← h1]

lemma parseSysex_mono {tk tk' : MD_MFTrack} {mf mf' : MD_MIDIFile} {e : Nat}
    {evs : List DispatchedEvent} (heq : parseSysex tk mf e = some (tk', mf', evs)) :
    tk'.endOfTrack = tk.endOfTrack := by
  unfold parseSysex at heq
  split at heq
  · exact Option.noConfusion heq
  · simp only [Option.some.injEq, Prod.mk.injEq] at heq
    obtain ⟨h1, -, -⟩ := heq
    rw [← h1]

lemma parseMeta_mono {tk tk' : MD_MFTrack} {mf mf' : MD_MIDIFile}
    {evs : List DispatchedEvent} (heq : parseMeta tk mf = some (tk', mf', evs)) :
    tk'.endOfTrack = tk.endOfTrack ∨ tk'.endOfTrack = true := by
  unfold parseMeta at heq
  dsimp only at heq
  split at heq
  · exact Option.noConfusion heq
  · split at heq
    · right
      simp only [Option.some.injEq] at heq
      rw [← show _ = tk' from congrArg Prod.fst heq]
      rfl
    · split at heq
      · left
        simp only [Option.some.injEq] at heq
        rw [← show _ = tk' from congrArg Prod.fst heq]
        rfl
      · split at heq
        · left
          simp only [Option.some.injEq] at heq
          rw [← show _ = tk' from congrArg Prod.fst heq]
          rfl
        · split at heq
          · left
            simp only [Option.some.injEq] at heq
            rw [← show _ = tk' from congrArg Prod.fst heq]
            rfl
          · split at heq
            · left
              simp only [Option.some.injEq] at heq
              rw [← show _ = tk' from congrArg Prod.fst heq]
              rfl
            · split at heq
              · left
                simp only [Option.some.injEq] at heq
                rw [← show _ = tk' from congrArg Prod.fst heq]
                rfl
              · left
                simp only [Option.some.injEq] at heq
                rw [← show _ = tk' from congrArg Prod.fst heq]
                rfl

lemma parseEvent_mono {tk tk' : MD_MFTrack} {mf mf' : MD_MIDIFile}
    {evs : List DispatchedEvent} (hflag : tk.endOfTrack = true)
    (heq : tk.parseEvent mf = some (tk', mf', evs)) : tk'.endOfTrack = true := by
  unfold MD_MFTrack.parseEvent at heq
  dsimp only at heq
  split at heq
  · rw [parseMidi2_mono heq]; exact hflag
  · split at heq
    · rw [parseMidi1_mono heq]; exact hflag
    · split at heq
      · rw [parseRunOn_mono heq]; exact hflag
      · split at heq
        · rw [parseSysex_mono heq]; exact hflag
        · split at heq
          · rcases parseMeta_mono heq with h | h
            · rw [h]; exact hflag
            · exact h
          · simp only [Option.some.injEq, Prod.mk.injEq] at heq
            obtain ⟨h1, -, -⟩ := heq
            rw [← h1]

/-- Claim C7: once a track cursor's end-of-track flag is true — set by the
End-of-Track meta event, by an unrecognized status byte, or by the current
offset reaching the declared length — it stays true across every subsequent
`getNextEvent`/`parseEvent` call (`getNextEvent` returns false and decodes
nothing from the track), and only the explicit `restart` clears it.  The
conjuncts: (1) `getNextEvent` on an ended track is a no-op returning false;
(2) `parseEvent` never clears the flag; (3) `restart` does clear it;
(4) an unrecognized status byte (0xF1-0xF6, 0xF8-0xFE) sets the flag and
decodes nothing; (5) an End-of-Track meta event sets the flag; (6) after a
decoded event, the flag is true whenever the new offset reached the declared
length. -/
theorem end_of_track_permanent :
    (∀ (tk : MD_MFTrack) (mf : MD_MIDIFile) (ticks : Nat), tk.endOfTrack = true →
      tk.getNextEvent mf ticks = some (false, tk, mf, []))
    ∧ (∀ (tk tk' : MD_MFTrack) (mf mf' : MD_MIDIFile) (evs : List DispatchedEvent),
        tk.endOfTrack = true → tk.parseEvent mf = some (tk', mf', evs) →
        tk'.endOfTrack = true)
    ∧ (∀ tk : MD_MFTrack, (MD_MFTrack.restart tk).endOfTrack = false)
    ∧ (∀ (tk : MD_MFTrack) (mf : MD_MIDIFile),
        mf.fd.pos < mf.fd.data.length →
        240 ≤ byteAt mf.fd.data mf.fd.pos →
        byteAt mf.fd.data mf.fd.pos ≠ 240 →
        byteAt mf.fd.data mf.fd.pos ≠ 247 →
        byteAt mf.fd.data mf.fd.pos ≠ 255 →
        tk.parseEvent mf
          = some ({ tk with endOfTrack := true },
                  { mf with fd := { mf.fd with pos := mf.fd.pos + 1 } }, []))
    ∧ (∀ (tk tk' : MD_MFTrack) (mf mf' : MD_MIDIFile) (evs : List DispatchedEvent),
        mf.fd.pos < mf.fd.data.length →
        mf.fd.pos + 1 < mf.fd.data.length →
        byteAt mf.fd.data mf.fd.pos = 255 →
        byteAt mf.fd.data (mf.fd.pos + 1) = 47 →
        tk.parseEvent mf = some (tk', mf', evs) →
        tk'.endOfTrack = true)
    ∧ (∀ (tk tk' : MD_MFTrack) (mf mf' : MD_MIDIFile) (ticks : Nat)
        (evs : List DispatchedEvent),
        tk.getNextEvent mf ticks = some (true, tk', mf', evs) →
        tk'.length ≤ tk'.currOffset →
        tk'.endOfTrack = true) := by
  refine ⟨?_, ?_, ?_, ?_, ?_, ?_⟩
  · intro tk mf ticks hflag
    unfold MD_MFTrack.getNextEvent
    rw [if_pos hflag]
  · intro tk tk' mf mf' evs hflag heq
    exact parseEvent_mono hflag heq
  · intro tk
    rfl
  · intro tk mf hpos h240 hn240 hn247 hn255
    unfold MD_MFTrack.parseEvent
    rw [read8_eq mf.fd hpos]
    dsimp only
    rw [if_neg (by omega), if_neg (by omega), if_neg (by omega),
        if_neg (by omega), if_neg (by omega)]
  · intro tk tk' mf mf' evs hpos hpos1 h255 h47 heq
    unfold MD_MFTrack.parseEvent at heq
    rw [read8_eq mf.fd hpos] at heq
    dsimp only at heq
    rw [h255] at heq
    rw [if_neg (by decide), if_neg (by decide), if_neg (by decide),
        if_neg (by decide), if_pos rfl] at heq
    unfold parseMeta at heq
    rw [read8_eq _ (by dsimp only; exact hpos1)] at heq
    dsimp only at heq
    rw [h47] at heq
    split at heq
    · exact Option.noConfusion heq
    · rw [if_pos rfl] at heq
      simp only [Option.some.injEq] at heq
      rw [← show _ = tk' from congrArg Prod.fst heq]
      rfl
  · intro tk tk' mf mf' ticks evs heq hlen
    unfold MD_MFTrack.getNextEvent at heq
    split at heq
    · simp only [Option.some.injEq, Prod.mk.injEq] at heq
      exact absurd heq.1 (by decide)
    · dsimp only at heq
      split at heq
      · exact Option.noConfusion heq
      · split at heq
        · simp only [Option.some.injEq, Prod.mk.injEq] at heq
          exact absurd heq.1 (by decide)
        · split at heq
          · exact Option.noConfusion heq
          · rename_i tkr hparse
            simp only [Option.some.injEq, Prod.mk.injEq] at heq
            obtain ⟨-, h2, -, -⟩ := heq
            rw [← h2] at hlen ⊢
            simp only at hlen ⊢
            rw [Bool.or_eq_true, decide_eq_true_eq]
            right
            exact hlen

/-- Witness for claim C7 at a concrete ended cursor. -/
theorem end_of_track_permanent_witness :
    ({ trackDefault with endOfTrack := true } : MD_MFTrack).getNextEvent MD_MIDIFile.new 5
      = some (false, { trackDefault with endOfTrack := true }, MD_MIDIFile.new, []) :=
  end_of_track_permanent.1 { trackDefault with endOfTrack := true } MD_MIDIFile.new 5 rfl

lemma set12_getD (xs : List Nat) (b c : Nat) (h : xs.length = 4) :
    ((xs.set 1 b).set 2 c).getD 0 0 = xs.getD 0 0
    ∧ ((xs.set 1 b).set 2 c).getD 1 0 = b
    ∧ (xs.set 1 b).getD 0 0 = xs.getD 0 0
    ∧ (xs.set 1 b).getD 1 0 = b := by
  rcases xs with _ | ⟨a0, xs⟩
  · simp at h
  rcases xs with _ | ⟨a1, xs⟩
  · simp at h
  rcases xs with _ | ⟨a2, xs⟩
  · simp at h
  exact ⟨rfl, rfl, rfl, rfl⟩

/-- Claim C4: with a remembered channel-message header in `_mev` (size 2 or
3), a due status byte `b` in 0x00-0x7F is decoded as a running-status
continuation: the emitted channel event keeps the remembered track, channel,
command (data byte 0) and size, has `b` as its first data byte and consumes
`size - 2` further data bytes from the source; hence a channel-message
header followed by two continuations yields three channel events with
identical channel and command (the concrete final conjunct: status 0x92
then two status-less messages decode to three events of channel 2, command
0x90). -/
theorem running_status_continuation :
    (∀ (tk : MD_MFTrack) (mf : MD_MIDIFile) (b : Nat),
      byteAt mf.fd.data mf.fd.pos = b → b ≤ 127 →
      mf.midiHandlerSet = true →
      (tk.mev.size = 2 → mf.fd.pos + 1 ≤ mf.fd.data.length →
        tk.parseEvent mf
          = some ({ tk with mev := { tk.mev with data := tk.mev.data.set 1 b } },
                  { mf with fd := { mf.fd with pos := mf.fd.pos + 1 } },
                  [.midi { tk.mev with data := tk.mev.data.set 1 b }]))
      ∧ (tk.mev.size = 3 → mf.fd.pos + 2 ≤ mf.fd.data.length →
          tk.parseEvent mf
            = some ({ tk with mev := { tk.mev with data := (tk.mev.data.set 1 b).set 2 (byteAt mf.fd.data (mf.fd.pos + 1)) } },
                    { mf with fd := { mf.fd with pos := mf.fd.pos + 2 } },
                    [.midi { tk.mev with data := (tk.mev.data.set 1 b).set 2 (byteAt mf.fd.data (mf.fd.pos + 1)) }]))
      ∧ (∀ c : Nat, tk.mev.data.length = 4 →
          ((tk.mev.data.set 1 b).set 2 c).getD 0 0 = tk.mev.data.getD 0 0
          ∧ ((tk.mev.data.set 1 b).set 2 c).getD 1 0 = b
          ∧ (tk.mev.data.set 1 b).getD 0 0 = tk.mev.data.getD 0 0
          ∧ (tk.mev.data.set 1 b).getD 1 0 = b))
    ∧ parseEvents3 trackDefault
        { MD_MIDIFile.new with
            fd := { data := [0x92, 0x3C, 0x40, 0x3E, 0x41, 0x40, 0x42],
                    pos := 0, opened := true },
            midiHandlerSet := true }
        = [.midi { track := 0, channel := 2, size := 3, data := [0x90, 0x3C, 0x40, 0] },
           .midi { track := 0, channel := 2, size := 3, data := [0x90, 0x3E, 0x41, 0] },
           .midi { track := 0, channel := 2, size := 3, data := [0x90, 0x40, 0x42, 0] }] := by
  refine ⟨?_, by decide⟩
  intro tk mf b hbyte hb hhand
  have hrun : ∀ (hpos : mf.fd.pos < mf.fd.data.length),
      tk.parseEvent mf
        = parseRunOn tk { mf with fd := { mf.fd with pos := mf.fd.pos + 1 } } b := by
    intro hpos
    unfold MD_MFTrack.parseEvent
    rw [read8_eq mf.fd hpos]
    dsimp only
    rw [hbyte]
    rw [if_neg (by omega), if_neg (by omega), if_pos (by omega)]
  refine ⟨?_, ?_, ?_⟩
  · intro hsize hpos
    rw [hrun (by omega)]
    unfold parseRunOn
    rw [hsize, show (2 : Nat) - 2 = 0 from rfl]
    dsimp only [readDataLoop]
    rw [if_pos hhand]
  · intro hsize hpos
    rw [hrun (by omega)]
    unfold parseRunOn
    rw [hsize, show (3 : Nat) - 2 = 1 from rfl]
    have hstep : readDataLoop 1 (tk.mev.data.set 1 b) 2 { mf.fd with pos := mf.fd.pos + 1 }
        = ((tk.mev.data.set 1 b).set 2 (byteAt mf.fd.data (mf.fd.pos + 1)),
           { mf.fd with pos := mf.fd.pos + 2 }) := by
      show (let r := SdFile.read8 { mf.fd with pos := mf.fd.pos + 1 }
            readDataLoop 0 ((tk.mev.data.set 1 b).set 2 r.1) 3 r.2) = _
      rw [read8_eq { mf.fd with pos := mf.fd.pos + 1 } (by dsimp only; omega)]
      rfl
    rw [hstep]
    dsimp only
    rw [if_pos hhand]
  · intro c hlen
    exact set12_getD tk.mev.data b c hlen

/-- Witness for claim C4: a remembered 3-byte header (note-on, channel 2)
continued by the data bytes 0x3E 0x41. -/
theorem running_status_continuation_witness :
    ({ trackDefault with mev := { track := 0, channel := 2, size := 3, data := [144, 60, 64, 0] } } : MD_MFTrack).parseEvent
        { MD_MIDIFile.new with fd := { data := [62, 65], pos := 0, opened := true }, midiHandlerSet := true }
      = some ({ trackDefault with mev := { track := 0, channel := 2, size := 3, data := [144, 62, 65, 0] } },
              { MD_MIDIFile.new with fd := { data := [62, 65], pos := 2, opened := true }, midiHandlerSet := true },
              [.midi { track := 0, channel := 2, size := 3, data := [144, 62, 65, 0] }]) := by
  have h := (running_status_continuation.1
      { trackDefault with mev := { track := 0, channel := 2, size := 3, data := [144, 60, 64, 0] } }
      { MD_MIDIFile.new with fd := { data := [62, 65], pos := 0, opened := true }, midiHandlerSet := true }
      62 rfl (by decide) rfl).2.1 rfl (by decide)
  exact h

lemma readBytes_eq :
    ∀ (k : Nat) (f : SdFile), f.pos + k ≤ f.data.length →
      readBytes f k
        = (((f.data.drop f.pos).take k).map (· % 256), { f with pos := f.pos + k })
  | 0, f, _ => by
    unfold readBytes
    simp
  | k + 1, f, h => by
    have hlt : f.pos < f.data.length := by omega
    unfold readBytes
    rw [read8_eq f hlt]
    dsimp only
    rw [readBytes_eq k { f with pos := f.pos + 1 } (by dsimp only; omega)]
    dsimp only
    rw [List.drop_eq_getElem_cons hlt]
    simp only [List.take_succ_cons, List.map_cons]
    have h1 : byteAt f.data f.pos = f.data[f.pos] % 256 := by
      unfold byteAt; rw [List.getD_eq_getElem f.data 0 hlt]
    have h2 : f.pos + 1 + k = f.pos + (k + 1) := by omega
    rw [h1, h2]

lemma seekCur_eq (f : SdFile) (d : Nat) (hlen : f.data.length < 4294967296)
    (h : f.pos + d ≤ f.data.length) :
    f.seekCur d = { f with pos := f.pos + d } := by
  unfold SdFile.seekCur SdFile.seekSet
  rw [u32_eq_of_lt (by omega), if_pos h]

/-- Claim C5: a SysEx event (status 0xF0 or 0xF7) whose declared VLQ length
makes the payload exceed the fixed capacity still dispatches exactly one
SysEx event, whose delivered byte list has exactly the capacity many bytes
(0xF0 included as first payload byte for 0xF0, not for 0xF7); the excess
source bytes are skipped by a forward seek (the final position sits past the
whole declared payload) and no error is raised (the cursor is untouched and
the result is a normal `some`). -/
theorem sysex_truncation (tk : MD_MFTrack) (mf : MD_MIDIFile) (e mLen : Nat)
    (fd1 : SdFile)
    (hpos : mf.fd.pos < mf.fd.data.length)
    (hbyte : byteAt mf.fd.data mf.fd.pos = e)
    (he : e = 240 ∨ e = 247)
    (hvlq : readVarLen { mf.fd with pos := mf.fd.pos + 1 } = some (mLen, fd1))
    (hhand : mf.sysexHandlerSet = true)
    (hcap : SYSEX_DATA_SIZE < (if e = 240 then mLen + 1 else mLen))
    (hbytes : fd1.pos + mLen ≤ fd1.data.length)
    (hlen32 : fd1.data.length < 4294967296) :
    tk.parseEvent mf
      = some (tk, { mf with fd := { fd1 with pos := fd1.pos + mLen } },
              [.sysex { track := tk.trackId,
                        size := (if e = 240 then mLen + 1 else mLen),
                        data := (if e = 240 then [240] else [])
                          ++ ((fd1.data.drop fd1.pos).take
                                (SYSEX_DATA_SIZE - (if e = 240 then 1 else 0))).map (· % 256) }])
      ∧ ((if e = 240 then [240] else [])
          ++ ((fd1.data.drop fd1.pos).take
                (SYSEX_DATA_SIZE - (if e = 240 then 1 else 0))).map (· % 256)).length
        = SYSEX_DATA_SIZE := by
  have hS : SYSEX_DATA_SIZE = 50 := rfl
  have hstart : tk.parseEvent mf
      = parseSysex tk { mf with fd := { mf.fd with pos := mf.fd.pos + 1 } } e := by
    unfold MD_MFTrack.parseEvent
    rw [read8_eq mf.fd hpos]
    dsimp only
    rw [hbyte]
    rw [if_neg (by omega), if_neg (by omega), if_neg (by omega), if_pos he]
  rw [hstart]
  unfold parseSysex
  show (match readVarLen { mf.fd with pos := mf.fd.pos + 1 } with
        | none => none
        | some (mLen, fd) => _) = _ ∧ _
  rw [hvlq]
  rcases he with he | he <;> subst he
  · -- 0xF0: lead byte included
    rw [hS] at hcap ⊢
    simp only [if_pos (show (240 : Nat) = 240 from rfl), if_true] at hcap ⊢
    refine ⟨?_, ?_⟩
    · rw [show min (mLen + 1) 50 = 50 by omega]
      rw [readBytes_eq (50 - 1) fd1 (by omega)]
      dsimp only
      rw [if_pos (by omega : 50 < mLen + 1)]
      rw [seekCur_eq { fd1 with pos := fd1.pos + (50 - 1) } (mLen + 1 - 50)
            (by dsimp only; omega) (by dsimp only; omega)]
      rw [if_pos hhand]
      have harith : fd1.pos + (50 - 1) + (mLen + 1 - 50) = fd1.pos + mLen := by omega
      dsimp only
      rw [harith]
    · simp only [List.length_append, List.length_map, List.length_take,
        List.length_cons, List.length_nil, List.length_drop]
      omega
  · -- 0xF7: lead byte not included
    rw [hS] at hcap ⊢
    simp only [if_neg (show ¬((247 : Nat) = 240) by decide), if_false] at hcap ⊢
    refine ⟨?_, ?_⟩
    · rw [show min mLen 50 = 50 by omega]
      rw [readBytes_eq (50 - 0) fd1 (by omega)]
      dsimp only
      rw [if_pos (by omega : 50 < mLen)]
      rw [seekCur_eq { fd1 with pos := fd1.pos + (50 - 0) } (mLen - 50)
            (by dsimp only; omega) (by dsimp only; omega)]
      rw [if_pos hhand]
      have harith : fd1.pos + (50 - 0) + (mLen - 50) = fd1.pos + mLen := by omega
      dsimp only
      rw [harith]
    · simp only [List.length_append, List.length_map, List.length_take,
        List.length_nil, List.length_drop]
      omega

/-- Witness for claim C5: a 0xF0 SysEx with declared length 60 (61 payload
bytes with the lead byte, over the 50-byte capacity) delivers exactly the
capacity. -/
theorem sysex_truncation_witness :
    ((if (240 : Nat) = 240 then [240] else [])
        ++ ((((0xF0 :: 60 :: (List.range 60).map (· + 1)).drop 2).take
              (SYSEX_DATA_SIZE - (if (240 : Nat) = 240 then 1 else 0))).map (· % 256))).length
      = SYSEX_DATA_SIZE :=
  (sysex_truncation trackDefault
    { MD_MIDIFile.new with
        fd := { data := 0xF0 :: 60 :: (List.range 60).map (· + 1), pos := 0, opened := true },
        sysexHandlerSet := true }
    240 60 { data := 0xF0 :: 60 :: (List.range 60).map (· + 1), pos := 2, opened := true }
    (by decide) (by decide) (Or.inl rfl) (by decide) rfl (by decide) (by decide)
    (by decide)).2

/-! ### Claim C6: state after load-then-close -/

lemma getD_set_ne {α : Type} (l : List α) (i j : Nat) (a d : α) (h : i ≠ j) :
    (l.set i a).getD j d = l.getD j d := by
  simp [List.getD_eq_getElem?_getD, List.getElem?_set_ne h]

lemma getD_replicate_lt {α : Type} (j n : Nat) (d e : α) (h : j < n) :
    (List.replicate n d).getD j e = d := by
  simp [List.getD_eq_getElem?_getD, List.getElem?_replicate, h]

/-- `MD_MFTrack::load` touches the root object only through its byte
source. -/
lemma track_load_fd_only (tk : MD_MFTrack) (n : Nat) (mf : MD_MIDIFile) :
    ∃ fd, (MD_MFTrack.load tk n mf).2.2 = { mf with fd := fd } := by
  unfold MD_MFTrack.load
  dsimp only
  split
  · exact ⟨_, rfl⟩
  · split
    · exact ⟨_, rfl⟩
    · exact ⟨_, rfl⟩

/-- The track-load loop keeps the scalar state, the track count, the track
array length, and the track entries outside the index window it visits. -/
lemma loadTracksAux_preserves : ∀ (fuel i : Nat) (s : MD_MIDIFile),
    loadScalarPart (loadTracksAux s i fuel).2 = loadScalarPart s ∧
    (loadTracksAux s i fuel).2.trackCount = s.trackCount ∧
    (loadTracksAux s i fuel).2.track.length = s.track.length ∧
    ∀ j, j < i ∨ i + fuel ≤ j →
      (loadTracksAux s i fuel).2.track.getD j trackDefault
        = s.track.getD j trackDefault := by
  intro fuel
  induction fuel with
  | zero => exact fun i s => ⟨rfl, rfl, rfl, fun j _ => rfl⟩
  | succ fuel ih =>
    intro i s
    obtain ⟨fd0, hfd⟩ := track_load_fd_only (s.track.getD i trackDefault) i s
    rw [loadTracksAux]
    dsimp only
    rw [hfd]
    split
    · refine ⟨rfl, rfl, by simp, ?_⟩
      intro j hj
      exact getD_set_ne _ _ _ _ _ (by omega)
    · refine ⟨(ih _ _).1.trans rfl, (ih _ _).2.1.trans rfl,
        (ih _ _).2.2.1.trans (by simp), ?_⟩
      intro j hj
      refine ((ih _ _).2.2.2 j (by omega)).trans ?_
      exact getD_set_ne _ _ _ _ _ (by omega)

/-- `calcTickTime` writes only the tick time. -/
lemma calcTickTime_preserves (s : MD_MIDIFile) :
    loadScalarPart s.calcTickTime = loadScalarPart s ∧
    s.calcTickTime.trackCount = s.trackCount ∧
    s.calcTickTime.track = s.track := by
  unfold MD_MIDIFile.calcTickTime
  split <;> exact ⟨rfl, rfl, rfl⟩

/-- Composing a stage contract with a state that differs from `s` only in
erased fields. -/
lemma loadPreserves_comp {f : MD_MIDIFile → Int × MD_MIDIFile}
    (hf : loadPreserves f) (s t : MD_MIDIFile)
    (h1 : loadScalarPart t = loadScalarPart s) (h2 : t.track = s.track) :
    loadScalarPart (f t).2 = loadScalarPart s ∧
    (f t).2.track.length = s.track.length ∧
    ∀ j, (f t).2.trackCount ≤ j →
      (f t).2.track.getD j trackDefault = s.track.getD j trackDefault := by
  obtain ⟨g1, g2, g3⟩ := hf t
  exact ⟨g1.trans h1, by rw [g2, h2], fun j hj => by rw [g3 j hj, h2]⟩

lemma loadFail_preserves (c : Int) : loadPreserves (loadFail c) :=
  fun _ => ⟨rfl, rfl, fun _ _ => rfl⟩

lemma loadTracks_preserves : loadPreserves loadTracks := by
  intro s
  unfold loadTracks
  dsimp only
  obtain ⟨hc1, hc2, hc3⟩ := calcTickTime_preserves s
  obtain ⟨h1, h2, h3, h4⟩ :=
    loadTracksAux_preserves s.calcTickTime.trackCount 0 s.calcTickTime
  refine ⟨h1.trans hc1, by rw [h3, hc3], ?_⟩
  intro j hj
  rw [h2] at hj
  rw [h4 j (Or.inr (by omega)), hc3]

lemma loadDivision_preserves : loadPreserves loadDivision := by
  intro s
  unfold loadDivision
  dsimp only
  split
  · split
    · exact loadPreserves_comp loadTracks_preserves s _ rfl rfl
    · split
      · exact loadPreserves_comp loadTracks_preserves s _ rfl rfl
      · split
        · exact loadPreserves_comp loadTracks_preserves s _ rfl rfl
        · split
          · exact loadPreserves_comp loadTracks_preserves s _ rfl rfl
          · exact loadPreserves_comp (loadFail_preserves 7) s _ rfl rfl
  · exact loadPreserves_comp loadTracks_preserves s _ rfl rfl

lemma loadNTracks_preserves : loadPreserves loadNTracks := by
  intro s
  unfold loadNTracks
  dsimp only
  split
  · exact loadPreserves_comp (loadFail_preserves 6) s _ rfl rfl
  · split
    · exact loadPreserves_comp (loadFail_preserves 7) s _ rfl rfl
    · exact loadPreserves_comp loadDivision_preserves s _ rfl rfl

lemma loadFormat_preserves : loadPreserves loadFormat := by
  intro s
  unfold loadFormat
  dsimp only
  split
  · exact loadPreserves_comp (loadFail_preserves 5) s _ rfl rfl
  · exact loadPreserves_comp loadNTracks_preserves s _ rfl rfl

lemma loadHeader_preserves : loadPreserves loadHeader := by
  intro s
  unfold loadHeader
  dsimp only
  generalize s.fd.fgets 4 = rh
  generalize readMultiByte rh.2 4 = r4
  split
  · exact loadPreserves_comp (loadFail_preserves 3) s _ rfl rfl
  · split
    · exact loadPreserves_comp (loadFail_preserves 4) s _ rfl rfl
    · exact loadPreserves_comp loadFormat_preserves s _ rfl rfl

/-- `MD_MIDIFile::load` changes only the byte source, `format`,
`trackCount`, `ticksPerQuarterNote`, `tickTime`, and the track entries below
the resulting track count. -/
lemma load_preserves (s : MD_MIDIFile) (openOK : Bool) (bs : List Nat) :
    loadScalarPart (s.load openOK bs).2 = loadScalarPart s ∧
    (s.load openOK bs).2.track.length = s.track.length ∧
    ∀ j, (s.load openOK bs).2.trackCount ≤ j →
      (s.load openOK bs).2.track.getD j trackDefault
        = s.track.getD j trackDefault := by
  unfold MD_MIDIFile.load
  split
  · exact ⟨rfl, rfl, fun j _ => rfl⟩
  · split
    · exact ⟨rfl, rfl, fun j _ => rfl⟩
    · exact loadPreserves_comp loadHeader_preserves s _ rfl rfl

lemma forRange_length (f : MD_MFTrack → MD_MFTrack) (lo hi : Nat) :
    ∀ (ts : List MD_MFTrack) (idx : Nat), (forRange f lo hi ts idx).length = ts.length
  | [], _ => rfl
  | t :: rest, idx => by
    simp [forRange, forRange_length f lo hi rest (idx + 1)]

/-- `MD_MFTrack::close` brings a track to the default-constructed state in
every field except the remembered `_mev`. -/
lemma track_close_eqExceptMev (t : MD_MFTrack) :
    eqExceptMev t.close trackDefault :=
  ⟨rfl, rfl, rfl, rfl, rfl, rfl⟩

lemma eqExceptMev_refl (t : MD_MFTrack) : eqExceptMev t t :=
  ⟨rfl, rfl, rfl, rfl, rfl, rfl⟩

lemma getD_replicate_self {α : Type} (j n : Nat) (d : α) :
    (List.replicate n d).getD j d = d := by
  rcases Nat.lt_or_ge j n with h | h
  · exact getD_replicate_lt j n d d h
  · rw [List.getD_eq_getElem?_getD, List.getElem?_eq_none (by simpa using h)]
    rfl

/-- Claim C6 (counterexample): a successful `load` of a valid one-track file
that declares 96 ticks per quarter note, followed immediately by `close`,
does not restore the pre-load state: `ticksPerQuarterNote` keeps the loaded
value 96 (it was 48 before the load), `tickTime` keeps the recomputed 5208
(it was 10416), and the filename set before the load is cleared rather than
restored. -/
theorem load_close_not_inverse_counterexample :
    (let s0 : MD_MIDIFile := { MD_MIDIFile.new with fileName := [97] };
     let r := s0.load true [77, 84, 104, 100, 0, 0, 0, 6, 0, 0, 0, 1, 0, 96,
                            77, 84, 114, 107, 0, 0, 0, 4, 0, 255, 47, 0];
     r.1 = -1 ∧ s0.ticksPerQuarterNote = 48 ∧ s0.tickTime = 10416
       ∧ s0.fileName = [97] ∧ r.2.close.ticksPerQuarterNote = 96
       ∧ r.2.close.tickTime = 5208 ∧ r.2.close.fileName = []) := by
  decide

/-- Claim C6 (amended): after a successful `load` from the
freshly-constructed state (with a filename set), `close` returns the object
to the freshly-constructed state in the track count, the clock-error state,
the pause/sync/loop flags, the filename, the tempo and its adjustment, the
time signature, the handler hooks, and every track cursor up to its
remembered `_mev` buffer — but not in `format`, `ticksPerQuarterNote` or
`tickTime`, which keep the values derived from the loaded file (and the
filename is cleared rather than restored to its pre-load value). -/
theorem load_close_amended (nm bs : List Nat)
    (hok : (({ MD_MIDIFile.new with fileName := nm } : MD_MIDIFile).load true bs).1 = -1) :
    let s0 : MD_MIDIFile := { MD_MIDIFile.new with fileName := nm };
    let sc := ((s0.load true bs).2).close;
    sc.trackCount = MD_MIDIFile.new.trackCount ∧
    sc.lastTickError = MD_MIDIFile.new.lastTickError ∧
    sc.lastTickCheckTime = MD_MIDIFile.new.lastTickCheckTime ∧
    sc.syncAtStart = MD_MIDIFile.new.syncAtStart ∧
    sc.paused = MD_MIDIFile.new.paused ∧
    sc.looping = MD_MIDIFile.new.looping ∧
    sc.fileName = MD_MIDIFile.new.fileName ∧
    sc.tempo = MD_MIDIFile.new.tempo ∧
    sc.tempoDelta = MD_MIDIFile.new.tempoDelta ∧
    sc.timeSigNum = MD_MIDIFile.new.timeSigNum ∧
    sc.timeSigDen = MD_MIDIFile.new.timeSigDen ∧
    sc.midiHandlerSet = MD_MIDIFile.new.midiHandlerSet ∧
    sc.sysexHandlerSet = MD_MIDIFile.new.sysexHandlerSet ∧
    sc.metaHandlerSet = MD_MIDIFile.new.metaHandlerSet ∧
    sc.track.length = MD_MIDIFile.new.track.length ∧
    ∀ j, eqExceptMev (sc.track.getD j trackDefault)
                     (MD_MIDIFile.new.track.getD j trackDefault) := by
  intro s0 sc
  obtain ⟨hp, hlen, hout⟩ := load_preserves s0 true bs
  have e1 := congrArg MD_MIDIFile.lastTickError hp
  have e2 := congrArg MD_MIDIFile.lastTickCheckTime hp
  have e3 := congrArg MD_MIDIFile.looping hp
  have e4 := congrArg MD_MIDIFile.tempo hp
  have e5 := congrArg MD_MIDIFile.tempoDelta hp
  have e6 := congrArg MD_MIDIFile.timeSigNum hp
  have e7 := congrArg MD_MIDIFile.timeSigDen hp
  have e8 := congrArg MD_MIDIFile.midiHandlerSet hp
  have e9 := congrArg MD_MIDIFile.sysexHandlerSet hp
  have e10 := congrArg MD_MIDIFile.metaHandlerSet hp
  refine ⟨rfl, e1, e2, rfl, rfl, e3, rfl, e4, e5, e6, e7, e8, e9, e10,
    (forRange_length _ _ _ _ _).trans hlen, ?_⟩
  intro j
  have hnew : MD_MIDIFile.new.track.getD j trackDefault = trackDefault :=
    getD_replicate_self j 16 trackDefault
  rw [hnew]
  show eqExceptMev ((forRange MD_MFTrack.close 0 (s0.load true bs).2.trackCount
    (s0.load true bs).2.track 0).getD j trackDefault) trackDefault
  rw [forRange_getD]
  split
  · split
    · exact track_close_eqExceptMev _
    · rename_i h
      have hj : (s0.load true bs).2.trackCount ≤ j := by
        push_neg at h
        have := h (Nat.zero_le _)
        omega
      rw [hout j hj]
      have hs0 : s0.track.getD j trackDefault = trackDefault :=
        getD_replicate_self j 16 trackDefault
      rw [hs0]
      exact eqExceptMev_refl _
  · exact eqExceptMev_refl _

/-! ### Claim C1: the load result codes -/

/-- After `readMultiByte` reads `n` bytes the position has advanced by `n`,
clipped at the end of the source. -/
lemma readMultiByteAux_state : ∀ (n : Nat) (bs : List Nat) (p v : Nat) (b : Bool),
    p ≤ bs.length →
    (readMultiByteAux { data := bs, pos := p, opened := b } v n).2
      = { data := bs, pos := min (p + n) bs.length, opened := b } := by
  intro n
  induction n with
  | zero =>
    intro bs p v b hp
    show ({ data := bs, pos := p, opened := b } : SdFile) = _
    rw [show min (p + 0) bs.length = p by omega]
  | succ n ih =>
    intro bs p v b hp
    rw [readMultiByteAux]
    try dsimp only
    unfold SdFile.read
    try dsimp only
    split
    · rename_i hlt
      try dsimp only
      rw [ih bs (p + 1) _ b (by omega)]
      rw [show min (p + 1 + n) bs.length = min (p + (n + 1)) bs.length by omega]
    · rename_i hge
      try dsimp only
      rw [ih bs p _ b hp]
      rw [show min (p + n) bs.length = min (p + (n + 1)) bs.length by omega]

lemma readMultiByte_state (bs : List Nat) (p n : Nat) (b : Bool) (hp : p ≤ bs.length) :
    (readMultiByte { data := bs, pos := p, opened := b } n).2
      = { data := bs, pos := min (p + n) bs.length, opened := b } :=
  readMultiByteAux_state n bs p 0 b hp

/-- Once the read position is at the end of the source, every further
`readMultiByte` step reads -1, so the accumulated value is 255 modulo 256. -/
lemma readMultiByteAux_stuck : ∀ (n : Nat) (bs : List Nat) (p v : Nat),
    bs.length ≤ p → 0 < n →
    (readMultiByteAux { data := bs, pos := p, opened := true } v n).1 % 256 = 255 := by
  intro n
  induction n with
  | zero => intro bs p v _ h0; exact absurd h0 (by omega)
  | succ n ih =>
    intro bs p v hp _
    rw [readMultiByteAux]
    try dsimp only
    unfold SdFile.read
    try dsimp only
    rw [if_neg (by omega)]
    try dsimp only
    rcases Nat.eq_zero_or_pos n with hn | hn
    · subst hn
      have h : ((((v : Int) * 256 + (-1)) % 4294967296)).toNat % 256 = 255 := by omega
      exact h
    · exact ih bs p _ hp hn

/-- A `readMultiByte` that runs past the end of the source ends on a -1 read,
so its value is 255 modulo 256. -/
lemma readMultiByte_eof : ∀ (n : Nat) (bs : List Nat) (p v : Nat),
    p ≤ bs.length → bs.length < p + n →
    (readMultiByteAux { data := bs, pos := p, opened := true } v n).1 % 256 = 255 := by
  intro n
  induction n with
  | zero => intro bs p v hp hov; exact absurd hov (by omega)
  | succ n ih =>
    intro bs p v hp hov
    rcases Nat.lt_or_ge p bs.length with hlt | hge
    · rw [readMultiByteAux]
      try dsimp only
      unfold SdFile.read
      try dsimp only
      rw [if_pos hlt]
      try dsimp only
      exact ih bs (p + 1) _ (by omega) (by omega)
    · exact readMultiByteAux_stuck (n + 1) bs p v (by omega) (by omega)

lemma beAt_eof (bs : List Nat) (p n : Nat) (hp : p ≤ bs.length)
    (hov : bs.length < p + n) : beAt bs p n % 256 = 255 :=
  readMultiByte_eof n bs p 0 hp hov

/-- A big-endian field whose value is not 255 modulo 256 was read entirely
inside the source. -/
lemma beAt_in_bounds (bs : List Nat) (p n k : Nat) (hp : p ≤ bs.length)
    (hv : beAt bs p n = k) (hk : k % 256 ≠ 255) : p + n ≤ bs.length := by
  by_contra h
  have h255 := beAt_eof bs p n hp (by omega)
  rw [hv] at h255
  exact hk h255

lemma drop_cons_of_lt (bs : List Nat) (p : Nat) (h : p < bs.length) :
    bs.drop p = bs.getD p 0 :: bs.drop (p + 1) := by
  rw [List.drop_eq_getElem_cons h]
  congr 1
  symm
  rw [List.getD_eq_getElem?_getD, List.getElem?_eq_getElem h]
  rfl

/-- A run of `fgets` asked for `k` bytes, against a `k`-byte pattern that
contains no newline: the result equals the pattern exactly when the next `k`
stream bytes match it, in which case the position advances by exactly `k`. -/
lemma fgets_run : ∀ (k : Nat) (m bs : List Nat) (p : Nat),
    m.length = k → (∀ x ∈ m, x < 256 ∧ x ≠ 10) → p ≤ bs.length →
    ((((⟨bs, p, true⟩ : SdFile).fgets k).1 = m)
        ↔ ((bs.drop p).take k).map (· % 256) = m) ∧
    (((bs.drop p).take k).map (· % 256) = m →
      (((⟨bs, p, true⟩ : SdFile).fgets k).2 = (⟨bs, p + k, true⟩ : SdFile)
        ∧ p + k ≤ bs.length)) := by
  intro k
  induction k with
  | zero =>
    intro m bs p hm _ hp
    have hm0 : m = [] := List.length_eq_zero.mp hm
    subst hm0
    refine ⟨⟨fun _ => rfl, fun _ => rfl⟩, fun _ => ⟨rfl, by omega⟩⟩
  | succ k ih =>
    intro m bs p hm hb hp
    rcases m with _ | ⟨a, m'⟩
    · exact absurd hm (by simp)
    obtain ⟨ha256, ha10⟩ := hb a (List.mem_cons_self a m')
    have hb' : ∀ x ∈ m', x < 256 ∧ x ≠ 10 := fun x hx => hb x (List.mem_cons_of_mem a hx)
    have hm' : m'.length = k := by simpa using hm
    rcases Nat.lt_or_ge p bs.length with hlt | hge
    · have hdrop := drop_cons_of_lt bs p hlt
      rw [show ((bs.drop p).take (k + 1)).map (· % 256)
            = byteAt bs p :: ((bs.drop (p + 1)).take k).map (· % 256) from
          by rw [hdrop]; rfl]
      rw [SdFile.fgets]
      try dsimp only
      rw [if_pos hlt]
      try dsimp only
      by_cases hc : byteAt bs p = 10
      · rw [if_pos hc, hc]
        try dsimp only
        refine ⟨?_, ?_⟩
        · simp only [List.cons.injEq]
          exact ⟨fun h => absurd h.1.symm ha10, fun h => absurd h.1.symm ha10⟩
        · intro h
          injection h with h1 h2
          exact absurd h1.symm ha10
      · rw [if_neg hc]
        try dsimp only
        obtain ⟨ihiff, ihst⟩ := ih m' bs (p + 1) hm' hb' (by omega)
        refine ⟨?_, ?_⟩
        · simp only [List.cons.injEq]
          exact and_congr_right fun _ => ihiff
        · intro h
          injection h with h1 h2
          obtain ⟨hst, hbound⟩ := ihst h2
          refine ⟨?_, by omega⟩
          rw [hst]
          rw [show p + 1 + k = p + (k + 1) by omega]
    · rw [SdFile.fgets]
      try dsimp only
      rw [if_neg (by omega), List.drop_eq_nil_of_le (by omega)]
      refine ⟨?_, ?_⟩
      · constructor
        · intro h
          exact absurd h (by simp)
        · intro h
          exact absurd h (by simp)
      · intro h
        exact absurd h (by simp)

/-- The `magic4` test as the implementation performs it: the `fgets` result
equals a newline-free 4-byte magic iff the magic sits at the read position,
in which case the position advances by exactly 4. -/
lemma fgets_magic (m : List Nat) (bs : List Nat) (p : Nat)
    (hm : m.length = 4) (hb : ∀ x ∈ m, x < 256 ∧ x ≠ 10) (hp : p ≤ bs.length) :
    ((((⟨bs, p, true⟩ : SdFile).fgets 4).1 = m) ↔ magic4 bs p m) ∧
    (magic4 bs p m →
      (((⟨bs, p, true⟩ : SdFile).fgets 4).2 = (⟨bs, p + 4, true⟩ : SdFile)
        ∧ p + 4 ≤ bs.length)) :=
  fgets_run 4 m bs p hm hb hp

/-- Characterisation of `MD_MFTrack::load` over a positioned source: code 0
on a bad `MTrk` magic; with the magic present, code 1 exactly when the
declared track length seeks past the end of the source, else -1 with the
source repositioned to the start of the next chunk. -/
lemma track_load_spec (tk : MD_MFTrack) (n : Nat) (mf : MD_MIDIFile)
    (bs : List Nat) (p : Nat)
    (hfd : mf.fd = (⟨bs, p, true⟩ : SdFile)) (hp : p ≤ bs.length) :
    (¬ magic4 bs p mtrkBytes → (tk.load n mf).1 = 0) ∧
    (magic4 bs p mtrkBytes →
      (if bs.length < u32 (min (p + 8) bs.length + beAt bs (p + 4) 4)
       then (tk.load n mf).1 = 1
       else (tk.load n mf).1 = -1 ∧
            (tk.load n mf).2.2.fd
              = (⟨bs, u32 (min (p + 8) bs.length + beAt bs (p + 4) 4), true⟩ : SdFile) ∧
            u32 (min (p + 8) bs.length + beAt bs (p + 4) 4) ≤ bs.length)) := by
  unfold MD_MFTrack.load
  rw [hfd]
  try dsimp only
  obtain ⟨hiff, hst⟩ := fgets_magic mtrkBytes bs p rfl (by decide) hp
  constructor
  · intro hmag
    rw [if_pos (fun h => hmag (hiff.mp h))]
  · intro hmag
    have hr1 : ((⟨bs, p, true⟩ : SdFile).fgets 4).1 = mtrkBytes := hiff.mpr hmag
    obtain ⟨hst2, hb4⟩ := hst hmag
    rw [if_neg (not_not_intro hr1), hst2]
    try dsimp only
    rw [show (readMultiByte (⟨bs, p + 4, true⟩ : SdFile) 4).1 = beAt bs (p + 4) 4 from rfl]
    rw [readMultiByte_state bs (p + 4) 4 true (by omega)]
    rw [show min (p + 4 + 4) bs.length = min (p + 8) bs.length by omega]
    unfold SdFile.seekSet
    try dsimp only
    by_cases hle : u32 (min (p + 8) bs.length + beAt bs (p + 4) 4) ≤ bs.length
    · rw [if_pos hle]
      try dsimp only
      rw [if_neg (show ¬((u32 (min (p + 8) bs.length + beAt bs (p + 4) 4) : Int) = -1)
            by omega)]
      rw [if_neg (by omega)]
      exact ⟨rfl, rfl, by omega⟩
    · rw [if_neg hle]
      try dsimp only
      rw [if_pos rfl]
      rw [if_pos (by omega)]

/-- The track-load loop returns exactly the claimed per-track codes and
closes the source on failure. -/
lemma loadTracksAux_spec : ∀ (fuel i : Nat) (s : MD_MIDIFile) (bs : List Nat) (p : Nat),
    s.fd = (⟨bs, p, true⟩ : SdFile) → p ≤ bs.length →
    (loadTracksAux s i fuel).1 = trackLoadSpec bs p i fuel ∧
    ((loadTracksAux s i fuel).1 ≠ -1 → (loadTracksAux s i fuel).2.fd.opened = false) := by
  intro fuel
  induction fuel with
  | zero =>
    intro i s bs p hfd hp
    exact ⟨rfl, fun h => absurd rfl h⟩
  | succ fuel ih =>
    intro i s bs p hfd hp
    obtain ⟨h0, h1⟩ := track_load_spec (s.track.getD i trackDefault) i s bs p hfd hp
    rw [loadTracksAux, trackLoadSpec]
    try dsimp only
    by_cases hmag : magic4 bs p mtrkBytes
    · rw [if_neg (not_not_intro hmag)]
      have hsp := h1 hmag
      rcases Nat.lt_or_ge bs.length (u32 (min (p + 8) bs.length + beAt bs (p + 4) 4))
        with hlt | hge
      · rw [if_pos hlt] at hsp
        rw [if_pos hlt]
        refine ⟨?_, ?_⟩
        · rw [if_pos (show ((s.track.getD i trackDefault).load i s).1 ≠ -1
              by rw [hsp]; decide)]
          try dsimp only
          rw [hsp]
        · rw [if_pos (show ((s.track.getD i trackDefault).load i s).1 ≠ -1
              by rw [hsp]; decide)]
          intro _
          rfl
      · rw [if_neg (by omega)] at hsp
        obtain ⟨hr1, hfdX, hTle⟩ := hsp
        rw [if_neg (not_not_intro hr1)]
        rw [if_neg (show ¬ (bs.length
              < u32 (min (p + 8) bs.length + beAt bs (p + 4) 4)) by omega)]
        have hrec := ih (i + 1)
          { ((s.track.getD i trackDefault).load i s).2.2 with
              track := ((s.track.getD i trackDefault).load i s).2.2.track.set i
                         ((s.track.getD i trackDefault).load i s).2.1 }
          bs (u32 (min (p + 8) bs.length + beAt bs (p + 4) 4)) hfdX hTle
        exact ⟨hrec.1, hrec.2⟩
    · rw [if_pos hmag]
      refine ⟨?_, ?_⟩
      · rw [if_pos (show ((s.track.getD i trackDefault).load i s).1 ≠ -1
            by rw [h0 hmag]; decide)]
        try dsimp only
        rw [h0 hmag]
        omega
      · rw [if_pos (show ((s.track.getD i trackDefault).load i s).1 ≠ -1
            by rw [h0 hmag]; decide)]
        intro _
        rfl

lemma loadTracks_spec (s : MD_MIDIFile) (bs : List Nat) (p n : Nat)
    (hfd : s.fd = (⟨bs, p, true⟩ : SdFile)) (hp : p ≤ bs.length)
    (htc : s.trackCount = n) :
    (loadTracks s).1 = trackLoadSpec bs p 0 n ∧
    ((loadTracks s).1 ≠ -1 → (loadTracks s).2.fd.opened = false) := by
  unfold loadTracks
  try dsimp only
  have hc : s.calcTickTime.fd = s.fd ∧ s.calcTickTime.trackCount = s.trackCount := by
    unfold MD_MIDIFile.calcTickTime
    split <;> exact ⟨rfl, rfl⟩
  rw [hc.2.trans htc]
  exact loadTracksAux_spec n 0 s.calcTickTime bs p (hc.1.trans hfd) hp

lemma loadDivision_spec (s : MD_MIDIFile) (bs : List Nat) (n : Nat)
    (hfd : s.fd = (⟨bs, 12, true⟩ : SdFile)) (h12 : 12 ≤ bs.length)
    (htc : s.trackCount = n) :
    (loadDivision s).1 = loadSpecDivision bs n ∧
    ((loadDivision s).1 ≠ -1 → (loadDivision s).2.fd.opened = false) := by
  unfold loadDivision loadSpecDivision
  rw [hfd]
  try dsimp only
  rw [show (readMultiByte (⟨bs, 12, true⟩ : SdFile) 2).1 = beAt bs 12 2 from rfl]
  rw [readMultiByte_state bs 12 2 true (by omega)]
  rw [show min (12 + 2) bs.length = min 14 bs.length by omega]
  by_cases hbit : u16 (beAt bs 12 2) &&& 0x8000 ≠ 0
  · rw [if_pos hbit]
    by_cases h232 : (u16 (beAt bs 12 2) >>> 8) &&& 0xFF = 232
    · rw [if_pos h232, if_neg (fun h => h.2 (Or.inl h232))]
      apply loadTracks_spec
      · rfl
      · omega
      · exact htc
    · rw [if_neg h232]
      by_cases h231 : (u16 (beAt bs 12 2) >>> 8) &&& 0xFF = 231
      · rw [if_pos h231, if_neg (fun h => h.2 (Or.inr (Or.inl h231)))]
        apply loadTracks_spec
        · rfl
        · omega
        · exact htc
      · rw [if_neg h231]
        by_cases h227 : (u16 (beAt bs 12 2) >>> 8) &&& 0xFF = 227
        · rw [if_pos h227, if_neg (fun h => h.2 (Or.inr (Or.inr (Or.inl h227))))]
          apply loadTracks_spec
          · rfl
          · omega
          · exact htc
        · rw [if_neg h227]
          by_cases h226 : (u16 (beAt bs 12 2) >>> 8) &&& 0xFF = 226
          · rw [if_pos h226, if_neg (fun h => h.2 (Or.inr (Or.inr (Or.inr h226))))]
            apply loadTracks_spec
            · rfl
            · omega
            · exact htc
          · rw [if_neg h226]
            have hcond : (u16 (beAt bs 12 2) &&& 0x8000 ≠ 0) ∧
                ¬ ((u16 (beAt bs 12 2) >>> 8) &&& 0xFF = 232 ∨
                   (u16 (beAt bs 12 2) >>> 8) &&& 0xFF = 231 ∨
                   (u16 (beAt bs 12 2) >>> 8) &&& 0xFF = 227 ∨
                   (u16 (beAt bs 12 2) >>> 8) &&& 0xFF = 226) :=
              ⟨hbit, fun hor => by rcases hor with h | h | h | h <;> contradiction⟩
            rw [if_pos hcond]
            exact ⟨rfl, fun _ => rfl⟩
  · rw [if_neg hbit, if_neg (fun h => hbit h.1)]
    apply loadTracks_spec
    · rfl
    · omega
    · exact htc

lemma loadNTracks_spec (s : MD_MIDIFile) (bs : List Nat)
    (hfd : s.fd = (⟨bs, 10, true⟩ : SdFile)) (h10 : 10 ≤ bs.length)
    (hfm : s.format = u16 (beAt bs 8 2))
    (hfm01 : u16 (beAt bs 8 2) = 0 ∨ u16 (beAt bs 8 2) = 1) :
    (loadNTracks s).1 = loadSpecNTracks bs (u16 (beAt bs 8 2)) ∧
    ((loadNTracks s).1 ≠ -1 → (loadNTracks s).2.fd.opened = false) := by
  unfold loadNTracks loadSpecNTracks
  rw [hfd]
  try dsimp only
  rw [show (readMultiByte (⟨bs, 10, true⟩ : SdFile) 2).1 = beAt bs 10 2 from rfl]
  rw [readMultiByte_state bs 10 2 true (by omega)]
  rw [hfm]
  by_cases h6 : u16 (beAt bs 8 2) = 0 ∧ u16 (beAt bs 10 2) ≠ 1
  · rw [if_pos h6, if_pos h6]
    exact ⟨rfl, fun _ => rfl⟩
  · rw [if_neg h6, if_neg h6]
    by_cases h7 : MIDI_MAX_TRACKS < u16 (beAt bs 10 2)
    · rw [if_pos h7, if_pos h7]
      exact ⟨rfl, fun _ => rfl⟩
    · rw [if_neg h7, if_neg h7]
      have h7x : ¬ (16 < beAt bs 10 2 % 65536) := h7
      have hntrk255 : beAt bs 10 2 % 256 ≠ 255 := by omega
      have h12 : 12 ≤ bs.length := by
        have := beAt_in_bounds bs 10 2 (beAt bs 10 2) (by omega) rfl hntrk255
        omega
      rw [show min (10 + 2) bs.length = 12 by omega]
      have htc : u8 (u16 (beAt bs 10 2)) = u16 (beAt bs 10 2) := by
        show u16 (beAt bs 10 2) % 256 = u16 (beAt bs 10 2)
        have h16 : ¬ (16 < u16 (beAt bs 10 2)) := h7
        unfold u16 at h16 ⊢
        omega
      apply loadDivision_spec
      · rfl
      · exact h12
      · exact htc

lemma loadFormat_spec (s : MD_MIDIFile) (bs : List Nat)
    (hfd : s.fd = (⟨bs, 8, true⟩ : SdFile)) (h8 : 8 ≤ bs.length) :
    (loadFormat s).1 = loadSpecFormat bs ∧
    ((loadFormat s).1 ≠ -1 → (loadFormat s).2.fd.opened = false) := by
  unfold loadFormat loadSpecFormat
  rw [hfd]
  try dsimp only
  rw [show (readMultiByte (⟨bs, 8, true⟩ : SdFile) 2).1 = beAt bs 8 2 from rfl]
  rw [readMultiByte_state bs 8 2 true (by omega)]
  by_cases h5 : u16 (beAt bs 8 2) ≠ 0 ∧ u16 (beAt bs 8 2) ≠ 1
  · rw [if_pos h5, if_pos h5]
    exact ⟨rfl, fun _ => rfl⟩
  · rw [if_neg h5, if_neg h5]
    have hfm01 : u16 (beAt bs 8 2) = 0 ∨ u16 (beAt bs 8 2) = 1 := by
      rcases Decidable.em (u16 (beAt bs 8 2) = 0) with h | h
      · exact Or.inl h
      · rcases Decidable.em (u16 (beAt bs 8 2) = 1) with h2 | h2
        · exact Or.inr h2
        · exact absurd ⟨h, h2⟩ h5
    have h255 : beAt bs 8 2 % 256 ≠ 255 := by
      have hx : beAt bs 8 2 % 65536 = 0 ∨ beAt bs 8 2 % 65536 = 1 := hfm01
      omega
    have h10 : 10 ≤ bs.length := by
      have := beAt_in_bounds bs 8 2 (beAt bs 8 2) (by omega) rfl h255
      omega
    rw [show min (8 + 2) bs.length = 10 by omega]
    apply loadNTracks_spec
    · rfl
    · exact h10
    · show u8 (u16 (beAt bs 8 2)) = u16 (beAt bs 8 2)
      rcases hfm01 with h | h <;> rw [h] <;> rfl
    · exact hfm01

lemma loadHeader_spec (s : MD_MIDIFile) (bs : List Nat)
    (hfd : s.fd = (⟨bs, 0, true⟩ : SdFile)) :
    (loadHeader s).1 = loadSpecHeader bs ∧
    ((loadHeader s).1 ≠ -1 → (loadHeader s).2.fd.opened = false) := by
  unfold loadHeader loadSpecHeader
  rw [hfd]
  try dsimp only
  obtain ⟨hiff, hst⟩ := fgets_magic mthdBytes bs 0 rfl (by decide) (by omega)
  by_cases hmag : magic4 bs 0 mthdBytes
  · have hr1 : ((⟨bs, 0, true⟩ : SdFile).fgets 4).1 = mthdBytes := hiff.mpr hmag
    obtain ⟨hst2, hb4⟩ := hst hmag
    rw [if_neg (not_not_intro hr1), if_neg (not_not_intro hmag), hst2]
    try dsimp only
    rw [show (readMultiByte (⟨bs, 0 + 4, true⟩ : SdFile) 4).1 = beAt bs 4 4 from rfl]
    rw [readMultiByte_state bs (0 + 4) 4 true (by omega)]
    by_cases h4 : beAt bs 4 4 ≠ 6
    · rw [if_pos h4, if_pos h4]
      exact ⟨rfl, fun _ => rfl⟩
    · rw [if_neg h4, if_neg h4]
      have h6 : beAt bs 4 4 = 6 := not_not.mp h4
      have h8 : 8 ≤ bs.length := by
        have := beAt_in_bounds bs 4 4 6 (by omega) h6 (by decide)
        omega
      rw [show min (0 + 4 + 4) bs.length = 8 by omega]
      apply loadFormat_spec
      · rfl
      · exact h8
  · have hr1 : ((⟨bs, 0, true⟩ : SdFile).fgets 4).1 ≠ mthdBytes :=
      fun h => hmag (hiff.mp h)
    rw [if_pos hr1, if_pos hmag]
    exact ⟨rfl, fun _ => rfl⟩

/-- Claim C1: `load` returns exactly the claimed discriminated codes with
the checks applied in the claimed order (0 empty filename; 2 open failure;
3 bad file magic; 4 header length field not 6; 5 format neither 0 nor 1; 6
format 0 with track count not 1; 7 too many tracks or unsupported SMPTE
frame rate; 10(i+1) bad magic of track i; 10(i+1)+1 declared length of
track i overruns the source; -1 success), and on every failure code issued
after the source was opened (anything but -1, 0 and 2) the source has been
closed. -/
theorem load_returns_claimed_codes (s : MD_MIDIFile) (openOK : Bool) (bs : List Nat) :
    (s.load openOK bs).1 = loadSpec s.fileName openOK bs ∧
    ((s.load openOK bs).1 ≠ -1 → (s.load openOK bs).1 ≠ 0 → (s.load openOK bs).1 ≠ 2 →
      (s.load openOK bs).2.fd.opened = false) := by
  unfold MD_MIDIFile.load loadSpec
  by_cases hnm : s.fileName = []
  · rw [if_pos hnm, if_pos hnm]
    exact ⟨rfl, fun _ h0 _ => absurd rfl h0⟩
  · rw [if_neg hnm, if_neg hnm]
    by_cases hok : openOK = false
    · rw [if_pos hok, if_pos hok]
      exact ⟨rfl, fun _ _ h2 => absurd rfl h2⟩
    · rw [if_neg hok, if_neg hok]
      obtain ⟨h1, h2⟩ := loadHeader_spec
        { s with fd := { data := bs, pos := 0, opened := true } } bs rfl
      exact ⟨h1, fun hm _ _ => h2 hm⟩

/-- Witness for claim C1: on a concrete 3-byte container the load code
equals the spec code (3, bad magic) and the source ends up closed. -/
theorem load_returns_claimed_codes_witness :
    ((({ MD_MIDIFile.new with fileName := [97] } : MD_MIDIFile).load true [1, 2, 3]).1
        = loadSpec [97] true [1, 2, 3])
      ∧ (({ MD_MIDIFile.new with fileName := [97] } : MD_MIDIFile).load true
          [1, 2, 3]).2.fd.opened = false :=
  ⟨(load_returns_claimed_codes { MD_MIDIFile.new with fileName := [97] } true [1, 2, 3]).1,
   (load_returns_claimed_codes { MD_MIDIFile.new with fileName := [97] } true [1, 2, 3]).2
     (by decide) (by decide) (by decide)⟩

/-- Witness for claim C6 (amended), at the concrete valid one-track file of
the counterexample: the track count after load-then-close equals the
freshly-constructed track count. -/
theorem load_close_amended_witness :
    (((({ MD_MIDIFile.new with fileName := [97] } : MD_MIDIFile).load true
        [77, 84, 104, 100, 0, 0, 0, 6, 0, 0, 0, 1, 0, 96,
         77, 84, 114, 107, 0, 0, 0, 4, 0, 255, 47, 0]).2).close).trackCount
      = MD_MIDIFile.new.trackCount :=
  (load_close_amended [97]
    [77, 84, 104, 100, 0, 0, 0, 6, 0, 0, 0, 1, 0, 96,
     77, 84, 114, 107, 0, 0, 0, 4, 0, 255, 47, 0] (by decide)).1

end MDMidi
